import Mathlib

/-!
# Raygun — verification of the payload ingestion and state-folding engine

Shallow embedding of the core of the `raygun` terminal client:
* `src/protocol/mod.rs` — the payload model (`RayRequest`, `Payload`, `PayloadKind`);
* `src/state/mod.rs` — the timeline store and the single-writer fold
  (`record_request`, `apply_payloads`, `merge_previous_log_into_context`);
* `src/ui/detail.rs` — the detail-view builder (`build_detail_view`);
* `src/app.rs` — the `flatten` summarization helper.

Modelling conventions:
* JSON numbers are carried at integer precision (`Int`); the state fold and the
  properties verified here never depend on fractional values.
* `SystemTime` instants are whole seconds since the Unix epoch (`Int`; negative
  values model instants before the epoch, mirroring `duration_since`'s `Err`).
* `Uuid` values are modelled as `Nat` tokens supplied by the caller; freshness
  is an explicit hypothesis where a proof needs it.
* `HashMap`/`BTreeMap` are association lists with first-match lookup.
* The asynchronous wrapper (`RwLock`, debug logger) is dropped: the fold runs
  under one exclusive critical section, so `record_request` is the pure state
  transformer applied by that critical section.
-/

namespace Raygun

/-- JSON values as deserialized by `serde_json` (numbers at integer
precision; object fields kept in the order the map yields them). -/
inductive Json where
  | null : Json
  | bool : Bool → Json
  | num : Int → Json
  | str : String → Json
  | arr : List Json → Json
  | obj : List (String × Json) → Json

/-- `Value::as_str`. -/
def Json.as_str : Json → Option String
  | .str s => some s
  | _ => none

/-- `Value::as_array`. -/
def Json.as_array : Json → Option (List Json)
  | .arr items => some items
  | _ => none

/-- `Value::as_object`. -/
def Json.as_object : Json → Option (List (String × Json))
  | .obj fields => some fields
  | _ => none

/-- `Value::as_bool`. -/
def Json.as_bool : Json → Option Bool
  | .bool b => some b
  | _ => none

/-- `Value::as_i64` (numbers are already integral in this model). -/
def Json.as_i64 : Json → Option Int
  | .num n => some n
  | _ => none

/-- `Map::get` — first-match lookup in the field list. -/
def jsonGet (fields : List (String × Json)) (key : String) : Option Json :=
  (fields.find? (fun kv => kv.1 = key)).map (·.2)

/-- `Value::get` on objects. -/
def Json.getKey (v : Json) (key : String) : Option Json :=
  v.as_object.bind (fun fields => jsonGet fields key)

/-- `protocol::PayloadKind` — the closed kind enumeration plus `Unknown(name)`.
`Label` is matched on by `state`, `app` and `ui::detail`, so the enum carries
it even though the snapshot of `protocol/mod.rs` elides its declaration. -/
inductive PayloadKind where
  | Log | Custom | CreateLock | ClearAll | Hide | ShowApp | ShowBrowser
  | Notify | Separator | Exception | Table | Text | Image | JsonString
  | DecodedJson | Boolean | Size | Color | Label | Trace | Caller | Measure
  | PhpInfo | NewScreen | Remove | HideApp | Ban | Charles
  | Unknown : String → PayloadKind
deriving Repr, DecidableEq

/-- `protocol::Origin`. -/
structure Origin where
  file : Option String
  line_number : Option Nat
  hostname : Option String
deriving Repr, DecidableEq

/-- `protocol::Payload`. -/
structure Payload where
  kind : PayloadKind
  content : Json
  origin : Option Origin

/-- `Payload::content_object`. -/
def Payload.content_object (p : Payload) : Option (List (String × Json)) :=
  p.content.as_object

/-- `Payload::content_string`. -/
def Payload.content_string (p : Payload) (key : String) : Option String :=
  ((p.content_object.bind (fun map => jsonGet map key)).bind Json.as_str)

/-- `protocol::RayRequest`. -/
structure RayRequest where
  uuid : String
  payloads : List Payload
  meta : List (String × Json)

/-- `state::TimelineEvent` (the `Uuid` and `SystemTime` are the model tokens). -/
structure TimelineEvent where
  id : Nat
  received_at : Int
  request : RayRequest
  screen : Option String
  color : Option String
  label : Option String

/-- `state::LockRecord`. -/
structure LockRecord where
  hostname : Option String
  project_name : Option String
deriving Repr, DecidableEq

/-- `state::StateInner` — timeline, lock registry, current-screen cursor. -/
structure StateInner where
  timeline : List TimelineEvent
  locks : List (String × LockRecord)
  current_screen : Option String

/-- The empty store (`StateInner::default`). -/
def StateInner.default : StateInner := ⟨[], [], none⟩

/-- `HashMap::insert` — replace any existing entry for `name`. -/
def locksInsert (locks : List (String × LockRecord)) (name : String)
    (record : LockRecord) : List (String × LockRecord) :=
  (locks.filter (fun kv => kv.1 ≠ name)) ++ [(name, record)]

/-- `HashMap::remove`. -/
def locksRemove (locks : List (String × LockRecord)) (name : String) :
    List (String × LockRecord) :=
  locks.filter (fun kv => kv.1 ≠ name)

/-- Rust `char::is_whitespace` (the Unicode `White_Space` property). -/
def isRustWs (c : Char) : Bool :=
  let n := c.toNat
  (0x09 ≤ n ∧ n ≤ 0x0D) ∨ n = 0x20 ∨ n = 0x85 ∨ n = 0xA0 ∨ n = 0x1680 ∨
    (0x2000 ≤ n ∧ n ≤ 0x200A) ∨ n = 0x2028 ∨ n = 0x2029 ∨ n = 0x202F ∨
    n = 0x205F ∨ n = 0x3000

/-- Rust `str::trim` (drops leading and trailing Unicode whitespace). -/
def rustTrim (s : String) : String :=
  String.mk (((s.data.dropWhile isRustWs).reverse.dropWhile isRustWs).reverse)

/-- `state::sanitize_screen_name`. -/
def sanitize_screen_name (raw : String) : String :=
  let name := rustTrim raw
  if name = "" then "Screen" else name

/-- `state::extract_screen_from_meta` — first non-empty trimmed string under
`screen`, `screen_name`, `screenName`. -/
def extract_screen_from_meta (meta : List (String × Json)) : Option String :=
  let keys := ["screen", "screen_name", "screenName"]
  let rec go : List String → Option String
    | [] => none
    | key :: rest =>
      match (jsonGet meta key).bind Json.as_str with
      | some value =>
        let trimmed := rustTrim value
        if trimmed ≠ "" then some trimmed else go rest
      | none => go rest
  go keys

/-- `state::ApplyOutcome`. -/
inductive ApplyOutcome where
  | Record | Skip
deriving Repr, DecidableEq

/-- Loop state of the single pass over `request.payloads` in
`StateInner::apply_payloads` (store, drafted event, and the accumulated
`displayable` / `outcome` / pending-color / pending-label intent). -/
structure ApplyAcc where
  st : StateInner
  ev : TimelineEvent
  displayable : Bool
  outcome : ApplyOutcome
  pending_color : Option String
  pending_label : Option String

/-- The displayable-kind test at the bottom of the payload loop
(`matches!(payload.kind, Log | Custom | … | NewScreen)`). -/
def is_displayable_kind : PayloadKind → Bool
  | .Log | .Custom | .Text | .Notify | .Exception | .Trace | .Table | .Image
  | .JsonString | .DecodedJson | .Separator | .Measure | .PhpInfo | .Size
  | .Caller | .ShowBrowser | .ShowApp | .HideApp | .Ban | .Charles
  | .NewScreen => true
  | _ => false

/-- One iteration of the payload loop in `StateInner::apply_payloads`. -/
def apply_step (acc : ApplyAcc) (payload : Payload) : ApplyAcc :=
  let acc1 :=
    match payload.kind with
    | .CreateLock =>
      match payload.content_string "name" with
      | some name =>
        let hostname := (jsonGet acc.ev.request.meta "hostname").bind Json.as_str
        let project := (jsonGet acc.ev.request.meta "project_name").bind Json.as_str
        { acc with
            st := { acc.st with
                      locks := locksInsert acc.st.locks name ⟨hostname, project⟩ } }
      | none => acc
    | .ClearAll =>
      { acc with
          st := { acc.st with timeline := [], locks := [], current_screen := none },
          outcome := .Skip }
    | .Remove =>
      let locks1 :=
        match payload.content_string "name" with
        | some name => locksRemove acc.st.locks name
        | none => acc.st.locks
      { acc with
          st := { acc.st with locks := locks1, timeline := acc.st.timeline.dropLast },
          outcome := .Skip }
    | .Hide =>
      { acc with
          st := { acc.st with timeline := acc.st.timeline.dropLast },
          outcome := .Skip }
    | .NewScreen =>
      match payload.content_string "name" with
      | some name =>
        let sanitized := sanitize_screen_name name
        { acc with
            st := { acc.st with current_screen := some sanitized },
            ev := { acc.ev with screen := some sanitized } }
      | none => acc
    | .Color =>
      match payload.content_string "color" with
      | some value =>
        { acc with ev := { acc.ev with color := some value }, pending_color := some value }
      | none => acc
    | .Label =>
      match payload.content_string "label" with
      | some value =>
        { acc with ev := { acc.ev with label := some value }, pending_label := some value }
      | none => acc
    | _ => acc
  if is_displayable_kind payload.kind then { acc1 with displayable := true } else acc1

/-- In-place mutation of the back of the `VecDeque` (`back_mut`): apply `f`
to the last element if there is one, otherwise leave the list alone. -/
def update_tail (f : TimelineEvent → TimelineEvent)
    (l : List TimelineEvent) : List TimelineEvent :=
  match l.getLast? with
  | none => l
  | some e => l.dropLast ++ [f e]

/-- The payload loop of `StateInner::apply_payloads` run from the initial
accumulator (`outcome = Record`, `displayable = false`, no pendings). -/
def pass_acc (s : StateInner) (ev : TimelineEvent) : ApplyAcc :=
  ev.request.payloads.foldl apply_step ⟨s, ev, false, .Record, none, none⟩

/-- The post-loop block of `StateInner::apply_payloads`: when nothing was
displayable, apply the pending color/label to the tail event in place and
set `outcome = Skip`. -/
def finish_acc (acc : ApplyAcc) : ApplyAcc :=
  if acc.displayable then acc
  else
    let st1 :=
      match acc.pending_color with
      | some c =>
        { acc.st with
            timeline := update_tail (fun e => { e with color := some c }) acc.st.timeline }
      | none => acc.st
    let st2 :=
      match acc.pending_label with
      | some l =>
        { st1 with
            timeline := update_tail (fun e => { e with label := some l }) st1.timeline }
      | none => st1
    { acc with st := st2, outcome := .Skip }

/-- `if event.screen.is_none() { event.screen = current_screen }` — the
current-screen inheritance applied to a drafted event (it appears both at
the end of `apply_payloads` and again in `record_request`). -/
def inherit_screen (s : StateInner) (ev : TimelineEvent) : TimelineEvent :=
  if ev.screen = none then { ev with screen := s.current_screen } else ev

/-- `StateInner::apply_payloads`: the single pass over the payloads, the
pending color/label application to the tail when nothing was displayable,
and the current-screen inheritance on the drafted event. -/
def apply_payloads (s : StateInner) (ev : TimelineEvent) :
    ApplyOutcome × StateInner × TimelineEvent :=
  let acc := finish_acc (pass_acc s ev)
  (acc.outcome, acc.st, inherit_screen acc.st acc.ev)

/-- The push-and-evict tail of `record_request`: `push_back` the event, then
`pop_front` when the length exceeds the retention bound. -/
def push_event (retention : Nat) (s2 : StateInner) (ev3 : TimelineEvent) :
    Option TimelineEvent × StateInner :=
  let pushed := s2.timeline ++ [ev3]
  let timeline1 := if pushed.length > retention then pushed.tail else pushed
  (some ev3, { s2 with timeline := timeline1 })

/-- `Iterator::find_map`. -/
def first_some {α β : Type} (f : α → Option β) : List α → Option β
  | [] => none
  | a :: rest =>
    match f a with
    | some b => some b
    | none => first_some f rest

/-- `state::extract_single_log_message` — solitary-log check, then the first
non-empty `clipboard_data` among the meta entries, else the first non-empty
string among `values`. -/
def extract_single_log_message (ev : TimelineEvent) : Option String :=
  if ev.request.payloads.length ≠ 1 then none
  else
    match ev.request.payloads.head? with
    | none => none
    | some payload =>
      if payload.kind ≠ .Log then none
      else
        let nonEmpty : String → Option String := fun t =>
          let trimmed := rustTrim t
          if trimmed = "" then none else some trimmed
        let clipboard :=
          ((payload.content_object.bind (fun map => jsonGet map "meta")).bind
              Json.as_array).bind
            (first_some fun meta =>
              ((meta.as_object.bind (fun object => jsonGet object "clipboard_data")).bind
                  Json.as_str).bind nonEmpty)
        match clipboard with
        | some c => some c
        | none =>
          ((payload.content_object.bind (fun map => jsonGet map "values")).bind
              Json.as_array).bind
            (first_some fun value => (value.as_str).bind nonEmpty)

/-- `StateInner::merge_previous_log_into_context` — the log-merge rule. -/
def merge_previous_log_into_context (s : StateInner) (ev : TimelineEvent) :
    StateInner × TimelineEvent :=
  if ¬ ev.request.payloads.any (fun p => p.kind = .Trace ∨ p.kind = .Caller) then (s, ev)
  else
    match s.timeline.getLast?.bind extract_single_log_message with
    | some message =>
      ({ s with timeline := s.timeline.dropLast },
        if ev.label = none then { ev with label := some message } else ev)
    | none => (s, ev)

/-- `DEFAULT_RETENTION`. -/
def DEFAULT_RETENTION : Nat := 1024

/-- `AppState::record_request` as the pure state transformer run inside the
write-lock critical section. `fresh_id` and `now` stand for the freshly
generated `Uuid` and the `SystemTime::now()` instant. -/
def record_request (retention : Nat) (s : StateInner) (request : RayRequest)
    (fresh_id : Nat) (now : Int) : Option TimelineEvent × StateInner :=
  let screen_hint := extract_screen_from_meta request.meta
  let ev0 : TimelineEvent :=
    ⟨fresh_id, now, request, screen_hint, none, none⟩
  let folded := apply_payloads s ev0
  let outcome := folded.1
  let s1 := folded.2.1
  let ev1 := folded.2.2
  let merged :=
    if outcome = .Record then merge_previous_log_into_context s1 ev1 else (s1, ev1)
  let s2 := merged.1
  let ev2 := merged.2
  if outcome = .Skip then (none, s2)
  else push_event retention s2 (inherit_screen s2 ev2)

/-- The kinds whose arm sets `outcome = Skip` inside the loop. -/
def is_skip_kind : PayloadKind → Bool
  | .ClearAll | .Remove | .Hide => true
  | _ => false

/-- The last `some` produced by `u` along the payload list (the value a
repeated `x = Some(v)` assignment holds at the end of the loop). -/
def last_update (u : Payload → Option String) (ps : List Payload) : Option String :=
  ps.foldl (fun cur p => (u p).or cur) none

/-- The assignment `event.label = Some(v)` performed by a `label` payload. -/
def label_update (p : Payload) : Option String :=
  if p.kind = .Label then p.content_string "label" else none

/-- The assignment `event.screen = Some(sanitized)` performed by a
`new_screen` payload carrying a name. -/
def screen_update (p : Payload) : Option String :=
  if p.kind = .NewScreen then (p.content_string "name").map sanitize_screen_name
  else none


/-! ### String scanning utilities shared by the detail renderer

The Rust side leans on `regex` and `html_escape`. The scanners below model
those calls directly over character lists; lengths and cursors are counted
in characters (the Rust code only ever advances its byte cursors across
whole characters, so the two views agree on the produced text). -/

/-- Rust `str::lines`: split on `\n`, dropping one trailing empty piece and
a trailing `\r` on each line. -/
def rustLines (s : String) : List String :=
  if s = "" then []
  else
    let parts := s.splitOn "\n"
    let parts := if s.endsWith "\n" then parts.dropLast else parts
    parts.map (fun line =>
      if line.endsWith "\r" then String.mk line.data.dropLast else line)

/-- `format!("{:<width$}", value)` — left align, pad with spaces (width in
characters). -/
def padRight (s : String) (width : Nat) : String :=
  if s.length ≥ width then s
  else s ++ String.mk (List.replicate (width - s.length) ' ')

/-- `haystack.contains(needle)` on character lists. -/
def listContainsSub (needle : List Char) : List Char → Bool
  | [] => needle = []
  | c :: rest =>
    if needle.isPrefixOf (c :: rest) then true else listContainsSub needle rest

/-- `haystack.contains(needle)` on strings. -/
def strContainsSub (hay needle : String) : Bool :=
  listContainsSub needle.data hay.data

/-- ASCII lowercasing, enough for the `(?i)` regex flags on tag names. -/
def asciiLower (c : Char) : Char :=
  if 'A' ≤ c ∧ c ≤ 'Z' then Char.ofNat (c.toNat + 32) else c

/-- Case-insensitive prefix test (ASCII). -/
def ciPrefix (pat : List Char) (cs : List Char) : Bool :=
  (pat.map asciiLower).isPrefixOf (cs.map asciiLower)

/-- `str::replace(pat, repl)` — leftmost, non-overlapping (pat non-empty). -/
def replace_seq (pat repl : List Char) (cs : List Char) : List Char :=
  match cs with
  | [] => []
  | c :: rest =>
    if pat ≠ [] ∧ pat.isPrefixOf (c :: rest) then
      repl ++ replace_seq pat repl ((c :: rest).drop pat.length)
    else c :: replace_seq pat repl rest
termination_by cs.length
decreasing_by
  · rename_i hp
    simp only [List.length_drop, List.length_cons]
    have hlen : 1 ≤ pat.length := by
      rcases pat with _ | ⟨a, ps⟩
      · exact absurd rfl hp.1
      · simp
    omega
  · simp

/-- Number of characters consumed by `<[^>]+>` when it matches at a `<`
that has already been consumed: position just past the closing `>` (the
run before it must be non-empty). -/
def find_tag_end (cs : List Char) : Option Nat :=
  match cs with
  | [] => none
  | '>' :: _ => none
  | _ :: rest => find_tag_end_go rest 1
where find_tag_end_go : List Char → Nat → Option Nat
  | [], _ => none
  | '>' :: _, n => some (n + 1)
  | _ :: rest, n => find_tag_end_go rest (n + 1)

/-- `TAG_RE.replace_all(input, "")` — drop every `<[^>]+>` fragment. -/
def strip_tags (cs : List Char) : List Char :=
  match cs with
  | [] => []
  | c :: rest =>
    if c = '<' then
      match find_tag_end rest with
      | some k => strip_tags (rest.drop k)
      | none => c :: strip_tags rest
    else c :: strip_tags rest
termination_by cs.length
decreasing_by
  · simp only [List.length_drop, List.length_cons]
    omega
  · simp
  · simp

/-- Decimal digits of a numeric character reference. -/
def isAsciiDigit (c : Char) : Bool := '0' ≤ c ∧ c ≤ '9'

def isAsciiHexDigit (c : Char) : Bool :=
  isAsciiDigit c ∨ ('a' ≤ c ∧ c ≤ 'f') ∨ ('A' ≤ c ∧ c ≤ 'F')

def hexVal (c : Char) : Nat :=
  if isAsciiDigit c then c.toNat - '0'.toNat
  else if 'a' ≤ c ∧ c ≤ 'f' then c.toNat - 'a'.toNat + 10
  else c.toNat - 'A'.toNat + 10

def digitsToNat (base : Nat) (ds : List Char) : Nat :=
  ds.foldl (fun acc c => acc * base + hexVal c) 0

/-- The named character references recognised by this model of
`html_escape::decode_html_entities` (the crate knows the full HTML5 table;
the fragment below covers the entities the repository's flows produce —
`&amp; &lt; &gt; &quot; &apos; &nbsp; &#…; &#x…;` — and every other `&…`
sequence passes through unchanged, matching the crate's behaviour on
unknown references). -/
def namedEntity (name : List Char) : Option (List Char) :=
  if name = "amp".data then some ['&']
  else if name = "lt".data then some ['<']
  else if name = "gt".data then some ['>']
  else if name = "quot".data then some ['"']
  else if name = "apos".data then some ['\'']
  else if name = "nbsp".data then some [Char.ofNat 0xA0]
  else none

/-- Try to read one character reference right after a consumed `&`; returns
the replacement and the number of characters (after the `&`) it spans. -/
def matchEntity (cs : List Char) : Option (List Char × Nat) :=
  match cs with
  | '#' :: 'x' :: rest =>
    let ds := rest.takeWhile isAsciiHexDigit
    if ds ≠ [] ∧ (rest.drop ds.length).head? = some ';' then
      let n := digitsToNat 16 ds
      some ([if n.isValidChar then Char.ofNat n else Char.ofNat 0xFFFD],
        2 + ds.length + 1)
    else none
  | '#' :: rest =>
    let ds := rest.takeWhile isAsciiDigit
    if ds ≠ [] ∧ (rest.drop ds.length).head? = some ';' then
      let n := digitsToNat 10 ds
      some ([if n.isValidChar then Char.ofNat n else Char.ofNat 0xFFFD],
        1 + ds.length + 1)
    else none
  | _ =>
    let name := cs.takeWhile (fun c => c.isAlpha ∨ isAsciiDigit c)
    if name ≠ [] ∧ (cs.drop name.length).head? = some ';' then
      (namedEntity name).map (fun repl => (repl, name.length + 1))
    else none

/-- Worker for `decodeChars`; every iteration consumes at least the leading
character, so fuel equal to the input length never runs out. -/
def decodeGo : Nat → List Char → List Char
  | 0, cs => cs
  | _ + 1, [] => []
  | fuel + 1, c :: rest =>
    if c = '&' then
      match matchEntity rest with
      | some (repl, k) => repl ++ decodeGo fuel (rest.drop k)
      | none => c :: decodeGo fuel rest
    else c :: decodeGo fuel rest

/-- Model of `html_escape::decode_html_entities`: one left-to-right pass
replacing each recognised `&…;` reference. -/
def decodeChars (cs : List Char) : List Char := decodeGo cs.length cs

/-- `decode_html_entities` on strings. -/
def decode_html_entities (s : String) : String := String.mk (decodeChars s.data)


/-- Index of the first (ASCII-case-insensitive) occurrence of `pat`. -/
def find_ci (pat : List Char) : List Char → Option Nat
  | [] => if pat = [] then some 0 else none
  | c :: rest =>
    if ciPrefix pat (c :: rest) then some 0
    else (find_ci pat rest).map (· + 1)

/-- `(?is)<tag[^>]*>.*?</tag>` → `""` (replace_all): drop every lazily
closed `tag` block, case-insensitively (`SF_SCRIPT_RE`, `SF_STYLE_RE`,
`SCRIPT_RE`). -/
def strip_tag_blocks (tag : List Char) (cs : List Char) : List Char :=
  match cs with
  | [] => []
  | c :: rest =>
    if ciPrefix ('<' :: tag) (c :: rest) then
      let afterOpen := (c :: rest).drop (1 + tag.length)
      match afterOpen.findIdx? (fun ch => ch = '>') with
      | some gt =>
        let afterGt := afterOpen.drop (gt + 1)
        match find_ci ('<' :: '/' :: tag ++ ['>']) afterGt with
        | some j => strip_tag_blocks tag (afterGt.drop (j + (tag.length + 3)))
        | none => c :: strip_tag_blocks tag rest
      | none => c :: strip_tag_blocks tag rest
    else c :: strip_tag_blocks tag rest
termination_by cs.length
decreasing_by
  · simp only [List.length_drop, List.length_cons]
    omega
  · simp
  · simp

/-- `detail::sanitize_sf_dump`. -/
def sanitize_sf_dump (input : String) : String :=
  let without_script := strip_tag_blocks "script".data input.data
  let without_style := strip_tag_blocks "style".data without_script
  let s1 := replace_seq "<br>".data "\n".data without_style
  let s2 := replace_seq "<br />".data "\n".data s1
  let s3 := replace_seq "\r".data "".data s2
  let s4 := replace_seq "&nbsp;".data " ".data s3
  decode_html_entities (String.mk (strip_tags s4))

/-- When `(?is)<tag[^>]*>(.*?)</tag>` matches with its opening at the head
of `cs`, return the captured inner text and the number of characters the
whole match spans. -/
def capture_block_at (tag : List Char) (cs : List Char) : Option (List Char × Nat) :=
  if ciPrefix ('<' :: tag) cs then
    let afterOpen := cs.drop (1 + tag.length)
    match afterOpen.findIdx? (fun ch => ch = '>') with
    | some gt =>
      let afterGt := afterOpen.drop (gt + 1)
      match find_ci ('<' :: '/' :: tag ++ ['>']) afterGt with
      | some j =>
        some (afterGt.take j,
          (1 + tag.length) + (gt + 1) + j + (tag.length + 3))
      | none => none
    | none => none
  else none

/-- `RE.captures(cs)` for `(?is)<tag[^>]*>(.*?)</tag>`: the first capture. -/
def first_capture_ci (tag : List Char) (cs : List Char) : Option (List Char) :=
  match cs with
  | [] => none
  | _ :: rest =>
    match capture_block_at tag cs with
    | some (cap, _) => some cap
    | none => first_capture_ci tag rest

/-- `RE.captures_iter(cs)` for `(?is)<tag[^>]*>(.*?)</tag>`: every
non-overlapping capture, leftmost first. -/
def captures_iter_ci (tag : List Char) (cs : List Char) : List (List Char) :=
  match cs with
  | [] => []
  | c :: rest =>
    match capture_block_at tag (c :: rest) with
    | some (cap, len) => cap :: captures_iter_ci tag (rest.drop (len - 1))
    | none => captures_iter_ci tag rest
termination_by cs.length
decreasing_by
  · simp only [List.length_drop, List.length_cons]
    omega
  · simp

/-- `IMG_SRC_RE` (`(?is)<img[^>]*src\s*=\s*['"]([^'"]+)['"]`): after an
`<img`, look inside the `>`-free run for `src`, then `\s*=\s*`, a quote, a
non-empty quote-free run, and a closing quote. The model takes the first
`src` occurrence inside the run (the regex's greedy `[^>]*` would prefer
the last); the flows verified here never hinge on that choice. -/
def img_src_from (cs : List Char) : Option (List Char) :=
  let rec scan_src : List Char → Option (List Char)
    | [] => none
    | c :: rest =>
      if c = '>' then none
      else if ciPrefix "src".data (c :: rest) then
        let afterSrc := (c :: rest).drop 3
        let afterWs1 := afterSrc.dropWhile isRustWs
        match afterWs1 with
        | '=' :: afterEq =>
          let afterWs2 := afterEq.dropWhile isRustWs
          match afterWs2 with
          | q :: afterQ =>
            if q = '"' ∨ q = '\'' then
              let content := afterQ.takeWhile (fun ch => ¬ (ch = '"' ∨ ch = '\''))
              let closeOk : Bool :=
                match afterQ.drop content.length with
                | q2 :: _ => q2 = '"' ∨ q2 = '\''
                | [] => false
              if content ≠ [] ∧ closeOk then
                some content
              else scan_src rest
            else scan_src rest
          | [] => scan_src rest
        | _ => scan_src rest
      else scan_src rest
  scan_src cs

/-- `IMG_SRC_RE.captures(html)`: find the first `<img` whose attribute run
yields a quoted `src`. -/
def img_src_capture (cs : List Char) : Option (List Char) :=
  match cs with
  | [] => none
  | c :: rest =>
    if ciPrefix "<img".data (c :: rest) then
      match img_src_from ((c :: rest).drop 4) with
      | some cap => some cap
      | none => img_src_capture rest
    else img_src_capture rest

/-- `TAG_GAP_RE.replace_all(html, ">\n<")` — collapse `>\s*<` gaps. -/
def tag_gap_newlines (cs : List Char) : List Char :=
  match cs with
  | [] => []
  | c :: rest =>
    if c = '>' then
      let ws := rest.takeWhile isRustWs
      if (rest.drop ws.length).head? = some '<' then
        '>' :: '\n' :: '<' :: tag_gap_newlines (rest.drop (ws.length + 1))
      else c :: tag_gap_newlines rest
    else c :: tag_gap_newlines rest
termination_by cs.length
decreasing_by
  · simp only [List.length_drop, List.length_cons]
    omega
  · simp
  · simp


/-! ### Detail view data model (`ui/detail.rs`) -/

/-- `SegmentStyle` (Rust `Type` and `String` are keywords here, rendered as
`TypeTag` and `StringTok`). -/
inductive SegmentStyle where
  | Plain | Key | TypeTag | StringTok | Number | Boolean | Null
deriving Repr, DecidableEq

/-- `DetailSegment`. -/
structure DetailSegment where
  text : String
  style : SegmentStyle
deriving Repr, DecidableEq

/-- `DetailLine`. -/
structure DetailLine where
  indent : Nat
  segments : List DetailSegment
deriving Repr, DecidableEq

/-- `DetailViewModel`. -/
structure DetailViewModel where
  header : String
  footer : String
  lines : List DetailLine
deriving Repr, DecidableEq

/-- `str::trim_start` (Unicode whitespace). -/
def rustTrimStart (s : String) : String := String.mk (s.data.dropWhile isRustWs)

/-- Drop trailing characters matching `p` (`trim_end_matches` and
`trim_end`). -/
def trimTrailing (p : Char → Bool) (s : String) : String :=
  String.mk (s.data.reverse.dropWhile p).reverse

/-- `detail::count_indent`. -/
def count_indent (line : String) : Nat :=
  (line.data.takeWhile isRustWs).length / 2

/-- `detail::parse_plain_line`. -/
def parse_plain_line (line : String) : DetailLine :=
  ⟨count_indent line, [⟨rustTrimStart line, .Plain⟩]⟩

/-- `detail::is_parenthesis_open`. -/
def is_parenthesis_open (line : String) : Bool := line = "("

/-- `detail::is_parenthesis_close`. -/
def is_parenthesis_close (line : String) : Bool := line = ")" ∨ line = "),"

/-- `detail::starts_with_closing_bracket` (the source repeats the `]` arm). -/
def starts_with_closing_bracket (line : String) : Bool :=
  line.startsWith "]" ∨ line.startsWith "]" ∨ line.startsWith "] " ∨
    line.startsWith "]," ∨ line.startsWith "\x7d" ∨ line.startsWith "\x7d,"

/-- `detail::ends_with_open_bracket`. -/
def ends_with_open_bracket (line : String) : Bool :=
  let line := trimTrailing isRustWs (trimTrailing (fun c => c = ',') line)
  line.endsWith "[" ∨ line.endsWith "\x7b" ∨ line.endsWith "=> [" ∨
    line.endsWith "=> \x7b" ∨ line.endsWith "=> array(" ∨
    line.endsWith "=> array:" ∨ line = "[" ∨ line = "\x7b" ∨
    line.startsWith "stdClass#" ∨
    (strContainsSub line " \x7b#" ∧ (line.endsWith "▼" ∨ line.endsWith "▶"))

/-- Model of the regex word class `\w` at its ASCII core. -/
def isWordChar (c : Char) : Bool := c.isAlphanum ∨ c = '_'

/-- Word-boundary test for `\b` at the end of a literal. -/
def atBoundary (cs : List Char) : Bool :=
  match cs.head? with
  | some c => ¬ isWordChar c
  | none => true

/-- `KEY_RE` (`^(\+?\[[^\]]+\]|\+["'][^"']+["']|[-+][\w$]+:)`), anchored;
returns the match length. -/
def key_match (cs : List Char) : Option Nat :=
  let alt1 :=
    let plusLen := if cs.head? = some '+' then 1 else 0
    let cs1 := cs.drop plusLen
    match cs1 with
    | '[' :: r =>
      let run := r.takeWhile (fun c => c ≠ ']')
      if run ≠ [] ∧ (r.drop run.length).head? = some ']' then
        some (plusLen + 1 + run.length + 1)
      else none
    | _ => none
  match alt1 with
  | some n => some n
  | none =>
    let alt2 :=
      match cs with
      | '+' :: q :: r =>
        if q = '"' ∨ q = '\'' then
          let run := r.takeWhile (fun c => ¬ (c = '"' ∨ c = '\''))
          let closeOk : Bool :=
            match (r.drop run.length).head? with
            | some q2 => q2 = '"' ∨ q2 = '\''
            | none => false
          if run ≠ [] ∧ closeOk then some (2 + run.length + 1)
          else none
        else none
      | _ => none
    match alt2 with
    | some n => some n
    | none =>
      match cs with
      | s :: r =>
        if s = '-' ∨ s = '+' then
          let run := r.takeWhile (fun c => isWordChar c ∨ c = '$')
          if run ≠ [] ∧ (r.drop run.length).head? = some ':' then
            some (1 + run.length + 1)
          else none
        else none
      | [] => none

/-- `TYPE_RE`
(`^(?:stdClass#\d+|array:\d+|object\([^)]*\)|[\w\\]+(?:<[^>]+>)?\s*\{#\d+)`),
anchored. -/
def type_match (cs : List Char) : Option Nat :=
  let lit : String → (List Char → Option Nat) → Option Nat := fun pre k =>
    if pre.data.isPrefixOf cs then k (cs.drop pre.length) else none
  let alt1 := lit "stdClass#" (fun r =>
    let ds := r.takeWhile isAsciiDigit
    if ds ≠ [] then some (9 + ds.length) else none)
  match alt1 with
  | some n => some n
  | none =>
    let alt2 := lit "array:" (fun r =>
      let ds := r.takeWhile isAsciiDigit
      if ds ≠ [] then some (6 + ds.length) else none)
    match alt2 with
    | some n => some n
    | none =>
      let alt3 := lit "object(" (fun r =>
        let run := r.takeWhile (fun c => c ≠ ')')
        if (r.drop run.length).head? = some ')' then
          some (7 + run.length + 1)
        else none)
      match alt3 with
      | some n => some n
      | none =>
        let ident := cs.takeWhile (fun c => isWordChar c ∨ c = '\\')
        if ident = [] then none
        else
          let afterIdent := cs.drop ident.length
          let genLen :=
            match afterIdent with
            | '<' :: r =>
              let run := r.takeWhile (fun c => c ≠ '>')
              if run ≠ [] ∧ (r.drop run.length).head? = some '>' then
                1 + run.length + 1
              else 0
            | _ => 0
          let afterGen := afterIdent.drop genLen
          let ws := afterGen.takeWhile isRustWs
          let afterWs := afterGen.drop ws.length
          match afterWs with
          | a :: b :: r =>
            if a = Char.ofNat 0x7B ∧ b = '#' then
              let ds := r.takeWhile isAsciiDigit
              if ds ≠ [] then
                some (ident.length + genLen + ws.length + 2 + ds.length)
              else none
            else none
          | _ => none

/-- `BOOL_RE` (`^(true|false)\b`), anchored. -/
def bool_match (cs : List Char) : Option Nat :=
  if "true".data.isPrefixOf cs ∧ atBoundary (cs.drop 4) then some 4
  else if "false".data.isPrefixOf cs ∧ atBoundary (cs.drop 5) then some 5
  else none

/-- `NULL_RE` (`^null\b`), anchored. -/
def null_match (cs : List Char) : Option Nat :=
  if "null".data.isPrefixOf cs ∧ atBoundary (cs.drop 4) then some 4 else none

/-- `NUMBER_RE` (`^-?\d+(?:\.\d+)?`), anchored. -/
def number_match (cs : List Char) : Option Nat :=
  let negLen := if cs.head? = some '-' then 1 else 0
  let cs1 := cs.drop negLen
  let ds := cs1.takeWhile isAsciiDigit
  if ds = [] then none
  else
    let rest := cs1.drop ds.length
    let fracLen :=
      match rest with
      | '.' :: r2 =>
        let fs := r2.takeWhile isAsciiDigit
        if fs ≠ [] then 1 + fs.length else 0
      | _ => 0
    some (negLen + ds.length + fracLen)

/-- `detail::extract_string` — a quoted literal honouring backslash
escapes; returns the collected token and its length. -/
def extract_string_go (quote : Char) : List Char → List Char → Nat → Bool →
    Option (List Char × Nat)
  | [], _, _, _ => none
  | ch :: rest, collected, len, escaped =>
    let len1 := len + 1
    let collected1 := collected ++ [ch]
    if escaped then extract_string_go quote rest collected1 len1 false
    else if ch = '\\' then extract_string_go quote rest collected1 len1 true
    else if ch = quote then some (collected1, len1)
    else extract_string_go quote rest collected1 len1 false

/-- `detail::extract_string`. -/
def extract_string (input : List Char) : Option (List Char × Nat) :=
  match input with
  | [] => none
  | quote :: rest => extract_string_go quote rest [quote] 1 false

/-- `detail::push_plain` — append text as a `Plain` segment, merging with a
trailing `Plain` segment. -/
def push_plain (text : List Char) (segments : List DetailSegment) :
    List DetailSegment :=
  if text = [] then segments
  else
    match segments.getLast? with
    | some last =>
      if last.style = .Plain then
        segments.dropLast ++ [⟨last.text ++ String.mk text, .Plain⟩]
      else segments ++ [⟨String.mk text, .Plain⟩]
    | none => segments ++ [⟨String.mk text, .Plain⟩]

/-- One classification step of `parse_highlighted_line`: which token (style
and length) matches at the cursor, in the source's trial order. -/
def scan_token (cs : List Char) : Option (SegmentStyle × Nat) :=
  match key_match cs with
  | some n => some (.Key, n)
  | none =>
    match (if cs.head? = some '"' ∨ cs.head? = some '\'' then
        extract_string cs else none) with
    | some (_, len) => some (.StringTok, len)
    | none =>
      match type_match cs with
      | some n => some (.TypeTag, n)
      | none =>
        match bool_match cs with
        | some n => some (.Boolean, n)
        | none =>
          match null_match cs with
          | some n => some (.Null, n)
          | none => (number_match cs).map (fun n => (.Number, n))

/-- The cursor loop of `parse_highlighted_line`. The fuel starts at the
line length; every iteration consumes at least one character (all matchers
return positive lengths), so the fuel never runs dry. -/
def highlight_go (fuel : Nat) (cs : List Char) (segments : List DetailSegment) :
    List DetailSegment :=
  match fuel with
  | 0 => segments
  | fuel + 1 =>
    match cs with
    | [] => segments
    | c :: rest =>
      match scan_token (c :: rest) with
      | some (style, n) =>
        highlight_go fuel ((c :: rest).drop n)
          (segments ++ [⟨String.mk ((c :: rest).take n), style⟩])
      | none => highlight_go fuel rest (push_plain [c] segments)

/-- `detail::parse_highlighted_line`. -/
def parse_highlighted_line (line : String) (indent : Nat) : DetailLine :=
  ⟨indent, highlight_go line.data.length line.data []⟩

/-- The indent-tracking walk of `parse_sf_dump` over the sanitized lines. -/
def sf_dump_lines : List String → Nat → List DetailLine
  | [], _ => []
  | raw :: rest, indent =>
    let trimmed := rustTrim raw
    if trimmed = "" then sf_dump_lines rest indent
    else if is_parenthesis_open trimmed then sf_dump_lines rest (indent + 1)
    else if is_parenthesis_close trimmed then sf_dump_lines rest (indent - 1)
    else
      let indent1 := if starts_with_closing_bracket trimmed then indent - 1
                     else indent
      let line := parse_highlighted_line trimmed indent1
      let indent2 := if ends_with_open_bracket trimmed then indent1 + 1
                     else indent1
      line :: sf_dump_lines rest indent2

/-- `detail::parse_sf_dump`. -/
def parse_sf_dump (dump : String) : List DetailLine :=
  sf_dump_lines (rustLines (sanitize_sf_dump dump)) 0


/-! ### JSON pretty printing and table rendering helpers -/

/-- JSON string escaping as `serde_json` performs it. -/
def jsonEscapeChar (c : Char) : List Char :=
  if c = '"' then ['\\', '"']
  else if c = '\\' then ['\\', '\\']
  else if c = Char.ofNat 0x08 then ['\\', 'b']
  else if c = Char.ofNat 0x0C then ['\\', 'f']
  else if c = '\n' then ['\\', 'n']
  else if c = '\r' then ['\\', 'r']
  else if c = '\t' then ['\\', 't']
  else if c.toNat < 0x20 then
    let hex := "0123456789abcdef".data
    ['\\', 'u', '0', '0', hex.getD (c.toNat / 16) '0', hex.getD (c.toNat % 16) '0']
  else [c]

def jsonEscape (s : String) : String :=
  String.mk (s.data.flatMap jsonEscapeChar)

def padSpaces (n : Nat) : String := String.mk (List.replicate n ' ')

mutual
/-- `serde_json::to_string_pretty` (two-space indentation, fields in map
order). -/
def jsonPrettyVal (ind : Nat) : Json → String
  | .null => "null"
  | .bool b => if b then "true" else "false"
  | .num n => toString n
  | .str s => "\"" ++ jsonEscape s ++ "\""
  | .arr [] => "[]"
  | .arr (item :: items) =>
    "[\n" ++ String.intercalate ",\n"
      (jsonPrettyItems (ind + 2) (item :: items)) ++ "\n" ++ padSpaces ind ++ "]"
  | .obj [] => "\x7b\x7d"
  | .obj (field :: fields) =>
    "\x7b\n" ++ String.intercalate ",\n"
      (jsonPrettyFields (ind + 2) (field :: fields)) ++ "\n" ++ padSpaces ind ++
      "\x7d"

def jsonPrettyItems (ind : Nat) : List Json → List String
  | [] => []
  | item :: items =>
    (padSpaces ind ++ jsonPrettyVal ind item) :: jsonPrettyItems ind items

def jsonPrettyFields (ind : Nat) : List (String × Json) → List String
  | [] => []
  | (key, value) :: fields =>
    (padSpaces ind ++ "\"" ++ jsonEscape key ++ "\": " ++ jsonPrettyVal ind value) ::
      jsonPrettyFields ind fields
end

/-- `serde_json::to_string_pretty` at top level. -/
def to_string_pretty (v : Json) : String := jsonPrettyVal 0 v

/-- `detail::display_width` (Unicode scalar values). -/
def display_width (text : String) : Nat := text.length

/-- `detail::truncate`. -/
def truncate (text : String) (max_chars : Nat) : String :=
  let flat := String.mk (text.data.map (fun c => if c = '\n' then ' ' else c))
  if flat.length ≤ max_chars then flat
  else String.mk (flat.data.take (max_chars - 3)) ++ "..."

/-- `detail::strip_html`. -/
def strip_html (input : String) : String :=
  let text := replace_seq "<br>".data "\n".data input.data
  let text := replace_seq "<br />".data "\n".data text
  let text := strip_tag_blocks "script".data text
  let stripped := strip_tags text
  decode_html_entities (rustTrim (String.mk stripped))

/-- `detail::clean_html_text`. -/
def clean_html_text (input : String) : String := truncate (strip_html input) 80

/-- `detail::format_table_value`. -/
def format_table_value (v : Json) : String :=
  match v with
  | .str text => clean_html_text text
  | .bool b => if b then "true" else "false"
  | .num n => toString n
  | .null => "null"
  | .arr a => "[array " ++ toString a.length ++ "]"
  | .obj o => "\x7bobject " ++ toString o.length ++ " keys\x7d"

/-- `detail::value_to_plain`. -/
def value_to_plain (v : Json) : String :=
  match v with
  | .str text =>
    let cleaned := clean_html_text text
    if cleaned = "" then text else cleaned
  | .bool b => if b then "true" else "false"
  | .num n => toString n
  | .null => "null"
  | .arr a => "[array " ++ toString a.length ++ "]"
  | .obj o => "\x7bobject " ++ toString o.length ++ " keys\x7d"

/-- `detail::json_value_preview`. -/
def json_value_preview (v : Json) : String :=
  match v with
  | .str text => text
  | .num n => toString n
  | .bool b => if b then "true" else "false"
  | .null => "null"
  | other => to_string_pretty other

/-- `BTreeMap<String, String>::insert` — sorted by key, replacing
duplicates (byte order and character order agree on the flows here). -/
def btree_insert (k : String) (v : String) :
    List (String × String) → List (String × String)
  | [] => [(k, v)]
  | (k1, v1) :: rest =>
    if k < k1 then (k, v) :: (k1, v1) :: rest
    else if k = k1 then (k, v) :: rest
    else (k1, v1) :: btree_insert k v rest

/-- `str::split_once(pat)` — split at the first occurrence. -/
def splitOnceList (pat : List Char) (cs : List Char) : Option (List Char × List Char) :=
  match cs with
  | [] => none
  | c :: rest =>
    if pat ≠ [] ∧ pat.isPrefixOf (c :: rest) then
      some ([], (c :: rest).drop pat.length)
    else
      (splitOnceList pat rest).map (fun pr => (c :: pr.1, pr.2))

def splitOnce (pat : String) (s : String) : Option (String × String) :=
  (splitOnceList pat.data s.data).map (fun pr => (String.mk pr.1, String.mk pr.2))

/-- `str::trim_matches(p)` — strip matching characters from both ends. -/
def trimMatches (p : Char → Bool) (s : String) : String :=
  String.mk (((s.data.dropWhile p).reverse.dropWhile p).reverse)

/-- `detail::parse_var_dumper_row`. -/
def parse_var_dumper_row (input : String) : Option (List (String × String)) :=
  let stripped := strip_html input
  let map := (rustLines stripped).foldl
    (fun map line =>
      let trimmed := rustTrim line
      if trimmed = "" ∨ trimmed = "[" ∨ trimmed = "]" ∨
          trimmed.endsWith "[" ∨ trimmed.startsWith "[" then map
      else
        match splitOnce "=>" trimmed with
        | some (key_part, value_part) =>
          let key := trimMatches (fun c => c = '"' ∨ c = '\'' ∨ c = '`')
            (rustTrim key_part)
          let value_raw := trimMatches (fun c => c = ',') (rustTrim value_part)
          if value_raw.endsWith "[" then map
          else if key.data.all isAsciiDigit then map
          else
            let value_clean := trimMatches (fun c => c = '"' ∨ c = '\'' ∨ c = '`')
              value_raw
            btree_insert key value_clean map
        | none => map)
    []
  if map = [] then none else some map

/-- `detail::TableModel`. -/
structure TableModel where
  headers : List String
  rows : List (List String)
deriving Repr, DecidableEq

def Json.is_object : Json → Bool
  | .obj _ => true
  | _ => false

def Json.is_array : Json → Bool
  | .arr _ => true
  | _ => false

def Json.is_string : Json → Bool
  | .str _ => true
  | _ => false

/-- The header-dedup of `TableModel::from_values` (insertion order, first
occurrence wins). -/
def dedup_push (headers : List String) (key : String) : List String :=
  if headers.any (fun existing => existing = key) then headers
  else headers ++ [key]

/-- `TableModel::from_values`. -/
def TableModel.from_values (values : List Json) : Option TableModel :=
  if values.isEmpty then none
  else if values.all Json.is_object then
    let headers := values.foldl
      (fun headers value =>
        match value.as_object with
        | some object => object.foldl (fun hs kv => dedup_push hs kv.1) headers
        | none => headers)
      []
    let rows := values.filterMap (fun value =>
      (value.as_object).map (fun object =>
        headers.map (fun header =>
          ((jsonGet object header).map format_table_value).getD "")))
    some ⟨headers, rows⟩
  else if values.all Json.is_array then
    let column_count := ((values.filterMap
      (fun value => (value.as_array).map List.length)).foldl max 0)
    let headers := (List.range column_count).map
      (fun idx => "col " ++ toString (idx + 1))
    let rows := values.filterMap (fun value =>
      (value.as_array).map (fun array =>
        (List.range column_count).map (fun idx =>
          ((array.get? idx).map format_table_value).getD "")))
    some ⟨headers, rows⟩
  else
    let string_attempt :=
      if values.all Json.is_string then
        let parsed := values.filterMap
          (fun value => (value.as_str).bind parse_var_dumper_row)
        let headers := parsed.foldl
          (fun headers row_map => row_map.foldl (fun hs kv => dedup_push hs kv.1) headers)
          []
        if ¬ parsed.isEmpty ∧ ¬ headers.isEmpty then
          some ⟨headers,
            parsed.map (fun row =>
              headers.map (fun header =>
                (((row.find? (fun kv => kv.1 = header)).map (·.2)).getD "")))⟩
        else none
      else none
    match string_attempt with
    | some t => some t
    | none =>
      some ⟨["value"], values.map (fun value => [format_table_value value])⟩

/-- `TableModel::from_html`. -/
def TableModel.from_html (html : String) : Option TableModel :=
  match first_capture_ci "table".data html.data with
  | none => none
  | some table_segment =>
    let headers := (captures_iter_ci "th".data table_segment).map
      (fun raw => clean_html_text (String.mk raw))
    if headers = [] then none
    else
      let rows := ((captures_iter_ci "tr".data table_segment).map
        (fun row_html => (captures_iter_ci "td".data row_html).map
          (fun raw => clean_html_text (String.mk raw)))).filter
        (fun cells => cells ≠ [])
      if rows = [] then none
      else some ⟨headers, rows⟩

/-- `detail::format_border`. -/
def format_border (widths : List Nat) (fill : Char) : String :=
  "+" ++ String.join (widths.map
    (fun width => String.mk (List.replicate (width + 2) fill) ++ "+"))

/-- `detail::format_row`. -/
def format_row (cells : List String) (widths : List Nat) : String :=
  "|" ++ String.join (widths.enum.map (fun iw =>
    " " ++ padRight (((cells.get? iw.1).map (fun c => c)).getD "") iw.2 ++ " |"))

/-- `TableModel::to_lines`. -/
def TableModel.to_lines (t : TableModel) : List String :=
  let widths := t.rows.foldl
    (fun widths row =>
      widths.enum.map (fun iw =>
        match row.get? iw.1 with
        | some cell => max iw.2 (display_width cell)
        | none => iw.2))
    (t.headers.map display_width)
  let border := format_border widths '-'
  let separator := format_border widths '='
  let header_line := format_row t.headers widths
  [border, header_line, separator] ++
    t.rows.map (fun row => format_row row widths) ++ [border]

/-- `detail::format_duration` — numbers live at integer precision here, so
`{:.3}` renders as `n.000`. -/
def format_duration (v : Json) : Option String :=
  (v.as_i64).map (fun n => toString n ++ ".000 ms")

/-- `detail::format_bytes` — the source's f64 halving loop is modelled as
exact rational division at the chosen 1024-power, rounding the second
decimal half-up; the verified properties never depend on the digits. -/
def format_bytes (v : Json) : Option String :=
  (v.as_i64).map (fun n =>
    if n < 1024 then toString n ++ ".00 B"
    else
      let units := ["B", "KB", "MB", "GB", "TB"]
      let k := if n ≥ (1024 : Int) ^ 4 then 4
               else if n ≥ (1024 : Int) ^ 3 then 3
               else if n ≥ (1024 : Int) ^ 2 then 2
               else 1
      let den : Nat := 1024 ^ k
      let centi := (n.toNat * 1000 / den + 5) / 10
      let q := centi / 100
      let f := centi % 100
      toString q ++ "." ++ (if f < 10 then "0" else "") ++ toString f ++ " " ++
        units.getD k "B")

/-- `detail::looks_like_html`. -/
def looks_like_html (input : String) : Bool :=
  let trimmed := rustTrim input
  trimmed.startsWith "<" ∧ strContainsSub trimmed ">"

/-- `detail::contains_sf_dump`. -/
def contains_sf_dump (input : String) : Bool := strContainsSub input "sf-dump"

/-- `detail::contains_image_tag`. -/
def contains_image_tag (html : String) : Bool := (img_src_capture html.data).isSome

/-- `detail::extract_image_src`. -/
def extract_image_src (html : String) : Option String :=
  (img_src_capture html.data).map String.mk

/-- `detail::ordered_map_entries` — php-info priority keys first, then the
rest in map order. -/
def ordered_map_entries (map : List (String × Json)) : List (String × Json) :=
  let priority := ["PHP version", "PHP ini file", "PHP scanned ini file",
    "Memory limit", "Max post size", "Max file upload size", "Extensions"]
  let firsts := priority.filterMap (fun key => (jsonGet map key).map (fun v => (key, v)))
  let seen := priority.filter (fun key => (jsonGet map key).isSome)
  firsts ++ map.filter (fun kv => ¬ seen.contains kv.1)


/-! ### The per-kind detail renderers -/

/-- `str::eq_ignore_ascii_case`. -/
def eq_ignore_case (a b : String) : Bool :=
  a.data.map asciiLower = b.data.map asciiLower

/-- `.map(|l| l.trim()).filter(|l| !l.is_empty())` on an optional string. -/
def nonempty_trimmed (s : Option String) : Option String :=
  (s.map rustTrim).bind (fun l => if l = "" then none else some l)

/-- The `"Label: …"` header pair pushed by several renderers. -/
def label_lines (label : Option String) : List DetailLine :=
  match label with
  | some l => [parse_plain_line ("Label: " ++ l), parse_plain_line ""]
  | none => []

/-- `detail::fallback_lines` — pretty-printed raw content. -/
def fallback_lines (payload : Payload) : List DetailLine :=
  let content := payload.content_object.getD []
  (rustLines (to_string_pretty (.obj content))).map parse_plain_line

/-- `detail::render_log`. -/
def render_log (payload : Payload) : List DetailLine :=
  let clipboard :=
    ((((payload.content_object.bind (fun m => jsonGet m "meta")).bind
        Json.as_array).bind (fun meta => meta.head?)).bind
      (fun entry => entry.getKey "clipboard_data")).bind Json.as_str
  match clipboard with
  | some clip => parse_sf_dump clip
  | none =>
    match (payload.content_object.bind (fun m => jsonGet m "values")).bind
        Json.as_array with
    | some values =>
      let lines := label_lines (nonempty_trimmed (payload.content_string "label")) ++
        values.map (fun value => parse_plain_line ("- " ++ value_to_plain value))
      if lines.isEmpty then fallback_lines payload else lines
    | none => fallback_lines payload

/-- `detail::render_text`. -/
def render_text (payload : Payload) : List DetailLine :=
  match payload.content_string "content" with
  | some text => (rustLines text).map parse_plain_line
  | none => fallback_lines payload

/-- `detail::render_label`. -/
def render_label (payload : Payload) : List DetailLine :=
  [parse_plain_line
    ((nonempty_trimmed (payload.content_string "label")).getD "label payload")]

/-- `detail::render_count`. -/
def render_count (content : String) (raw_label : Option String) : List DetailLine :=
  label_lines ((nonempty_trimmed raw_label).bind
    (fun l => if eq_ignore_case l "count" then none else some l)) ++
  [parse_plain_line (rustTrim content)]

/-- `detail::render_sf_dump`. -/
def render_sf_dump (content : String) (raw_label : Option String) : List DetailLine :=
  let dump_lines := parse_sf_dump content
  let dump_lines := if dump_lines.isEmpty then [parse_plain_line (rustTrim content)]
                    else dump_lines
  label_lines ((nonempty_trimmed raw_label).bind
    (fun l => if eq_ignore_case l "json" then none else some l)) ++ dump_lines

/-- The `>…<`-splitting loop body of `parse_html_segments`; fuel is the
remaining character count (every iteration consumes at least one). -/
def phs_go (fuel : Nat) (rest : List Char) (segments : List DetailSegment) :
    List DetailSegment :=
  match fuel with
  | 0 => segments
  | fuel + 1 =>
    match rest with
    | [] => segments
    | _ =>
      match rest.findIdx? (fun c => c = '<') with
      | some pos =>
        if pos > 0 then
          phs_go fuel (rest.drop pos)
            (segments ++ [⟨String.mk (rest.take pos), .StringTok⟩])
        else
          match rest.findIdx? (fun c => c = '>') with
          | some endIdx =>
            phs_go fuel (rest.drop (endIdx + 1))
              (segments ++ [⟨String.mk (rest.take (endIdx + 1)), .TypeTag⟩])
          | none => segments ++ [⟨String.mk rest, .StringTok⟩]
      | none => segments ++ [⟨String.mk rest, .StringTok⟩]

/-- `detail::parse_html_segments`. -/
def parse_html_segments (line : String) : List DetailSegment :=
  let segments := phs_go line.data.length line.data []
  if segments.isEmpty then [⟨line, .StringTok⟩] else segments

/-- The tag-indenting walk of `render_html`. -/
def html_walk : List String → Nat → List DetailLine
  | [], _ => []
  | raw :: rest, indent =>
    let trimmed := rustTrim raw
    if trimmed = "" then html_walk rest indent
    else
      let indent1 := if trimmed.startsWith "</" then indent - 1 else indent
      let segments := parse_html_segments trimmed
      let indent2 :=
        if trimmed.startsWith "<" ∧ ¬ trimmed.startsWith "</" ∧
            ¬ trimmed.endsWith "/>" ∧ ¬ trimmed.startsWith "<!" ∧
            ¬ trimmed.startsWith "<?" then indent1 + 1
        else indent1
      ⟨indent1, segments⟩ :: html_walk rest indent2

/-- `detail::render_html`. -/
def render_html (label : Option String) (html : String) : List DetailLine :=
  let labelLines :=
    match label with
    | some l =>
      if eq_ignore_case l "html" then []
      else [parse_plain_line ("Label: " ++ l), parse_plain_line ""]
    | none => []
  let normalized := String.mk (tag_gap_newlines html.data)
  let lines := labelLines ++ html_walk (rustLines normalized) 0
  if lines.isEmpty then [parse_plain_line html] else lines

/-- `detail::detail_key_value`. -/
def detail_key_value (label value : String) : DetailLine :=
  ⟨0, [⟨label ++ ": ", .Key⟩, ⟨value, .Plain⟩]⟩

/-- `detail::empty_line`. -/
def empty_line (indent : Nat) : DetailLine := ⟨indent, [⟨"", .Plain⟩]⟩

/-- `detail::render_measure`. -/
def render_measure (payload : Payload) : List DetailLine :=
  match payload.content_object with
  | none => fallback_lines payload
  | some content =>
    let lines :=
      (match (jsonGet content "name").bind Json.as_str with
       | some name => [detail_key_value "Name" name]
       | none => []) ++
      (match (jsonGet content "total_time").bind format_duration with
       | some formatted => [detail_key_value "Total time" formatted]
       | none => []) ++
      (match (jsonGet content "time_since_last_call").bind format_duration with
       | some formatted => [detail_key_value "Since last call" formatted]
       | none => []) ++
      (match (jsonGet content "max_memory_usage_during_total_time").bind
          format_bytes with
       | some formatted => [detail_key_value "Max memory (total)" formatted]
       | none => []) ++
      (match (jsonGet content "max_memory_usage_since_last_call").bind
          format_bytes with
       | some formatted => [detail_key_value "Max memory (delta)" formatted]
       | none => []) ++
      (match (jsonGet content "is_new_timer").bind Json.as_bool with
       | some new_timer =>
         [detail_key_value "New timer" (if new_timer then "yes" else "no")]
       | none => [])
    if lines.isEmpty then fallback_lines payload else lines

/-- `detail::push_frame_lines` (returned rather than pushed). -/
def push_frame_lines (index : Nat) (frame : List (String × Json))
    (base_indent : Nat) : List DetailLine :=
  let cls := rustTrim (((jsonGet frame "class").bind Json.as_str).getD "(anonymous)")
  let method := rustTrim (((jsonGet frame "method").bind Json.as_str).getD "")
  let file := nonempty_trimmed ((jsonGet frame "file_name").bind Json.as_str)
  let line_number := ((jsonGet frame "line_number").bind Json.as_i64).map toString
  let vendor := ((jsonGet frame "vendor_frame").bind Json.as_bool).getD false
  let header_segments :=
    [⟨"#" ++ padRight (toString (index + 1)) 2 ++ " ", .Plain⟩, ⟨cls, .Key⟩] ++
    (if method ≠ "" then [⟨"::", .Plain⟩, ⟨method, .TypeTag⟩] else []) ++
    (if vendor then [⟨" [vendor]", .Boolean⟩] else [])
  ⟨base_indent, header_segments⟩ ::
    (match file with
     | some f =>
       [⟨base_indent + 1,
         [⟨f, .StringTok⟩] ++
         (match line_number with
          | some ln => [⟨":", .Plain⟩, ⟨ln, .Number⟩]
          | none => [])⟩]
     | none => [])

/-- The trailing-blank-line removal at the end of `render_trace`. -/
def pop_trailing_blank (lines : List DetailLine) : List DetailLine :=
  match lines.getLast? with
  | some last =>
    match last.segments with
    | [seg] => if seg.text = "" then lines.dropLast else lines
    | _ => lines
  | none => lines

/-- `detail::render_trace`. -/
def render_trace (payload : Payload) : List DetailLine :=
  let lines := label_lines (nonempty_trimmed (payload.content_string "label"))
  match (payload.content_object.bind (fun m => jsonGet m "frames")).bind
      Json.as_array with
  | some frames =>
    if frames.isEmpty then lines ++ [parse_plain_line "(no frames)"]
    else
      pop_trailing_blank (lines ++ frames.enum.flatMap (fun iframe =>
        match iframe.2.as_object with
        | some frame => push_frame_lines iframe.1 frame 0 ++ [parse_plain_line ""]
        | none => []))
  | none => lines ++ [parse_plain_line "(no frames)"]

/-- `detail::render_caller`. -/
def render_caller (payload : Payload) : List DetailLine :=
  let lines := label_lines (nonempty_trimmed (payload.content_string "label"))
  match (payload.content_object.bind (fun m => jsonGet m "frame")).bind
      Json.as_object with
  | some frame => lines ++ push_frame_lines 0 frame 0
  | none => fallback_lines payload

/-- The `other` arm of `push_value_lines`: pretty-printed JSON re-indented
under the key line. -/
def pvl_other_lines (indent : Nat) (rest : List String) : List DetailLine :=
  rest.map (fun line =>
    let trimmed := rustTrim line
    let indent_width := (line.data.takeWhile isRustWs).length
    let extra_indent := indent_width / 2
    if trimmed = "" then empty_line (indent + 1 + extra_indent)
    else ⟨indent + 1 + extra_indent, [⟨trimmed, .Plain⟩]⟩)

/-- `detail::push_value_lines` (returned rather than pushed). -/
def push_value_lines (indent : Nat) (label : String) (value : Json) :
    List DetailLine :=
  match value with
  | .str text =>
    if text = "" then [⟨indent, [⟨label ++ ": ", .Key⟩, ⟨"\"\"", .StringTok⟩]⟩]
    else
      let pieces := rustLines text
      (match pieces.head? with
       | some first => [⟨indent, [⟨label ++ ": ", .Key⟩, ⟨first, .StringTok⟩]⟩]
       | none => []) ++
      (pieces.drop 1).map (fun extra =>
        if extra = "" then empty_line (indent + 1)
        else ⟨indent + 1, [⟨extra, .StringTok⟩]⟩)
  | .num n => [⟨indent, [⟨label ++ ": ", .Key⟩, ⟨toString n, .Number⟩]⟩]
  | .bool b =>
    [⟨indent, [⟨label ++ ": ", .Key⟩,
      ⟨if b then "true" else "false", .Boolean⟩]⟩]
  | .null => [⟨indent, [⟨label ++ ": ", .Key⟩, ⟨"null", .Null⟩]⟩]
  | other =>
    let json := to_string_pretty other
    match rustLines json with
    | [] => []
    | line :: rest =>
      ⟨indent, [⟨label ++ ": ", .Key⟩, ⟨rustTrim line, .Plain⟩]⟩ ::
        pvl_other_lines indent rest

/-- `detail::render_exception`. -/
def render_exception (payload : Payload) : List DetailLine :=
  match payload.content_object with
  | none => fallback_lines payload
  | some content =>
    let cls := ((jsonGet content "class").bind Json.as_str).getD "Exception"
    let line1 : DetailLine :=
      ⟨0, [⟨"Exception", .Key⟩, ⟨": ", .Plain⟩, ⟨cls, .TypeTag⟩]⟩
    let messageLines :=
      match jsonGet content "message" with
      | some message => push_value_lines 1 "message" message
      | none => [⟨1, [⟨"message: ", .Key⟩, ⟨"(missing)", .Plain⟩]⟩]
    let framesLines :=
      match (jsonGet content "frames").bind Json.as_array with
      | some frames =>
        let locationLines :=
          match frames.head?.bind Json.as_object with
          | some first_frame =>
            let file := nonempty_trimmed
              ((jsonGet first_frame "file_name").bind Json.as_str)
            let line_number := (jsonGet first_frame "line_number").bind Json.as_i64
            if file.isSome ∨ line_number.isSome then
              [⟨1, [⟨"location: ", .Key⟩] ++
                (match file with
                 | some f => [⟨f, .StringTok⟩]
                 | none => [⟨"(unknown)", .Null⟩]) ++
                (match line_number with
                 | some ln =>
                   (if file.isSome then [⟨":", .Plain⟩] else []) ++
                   [⟨toString ln, .Number⟩]
                 | none => [])⟩]
            else []
          | none => []
        let stackLines :=
          if frames.isEmpty then []
          else
            ⟨1, [⟨"stack trace (" ++ toString frames.length ++ " frames)", .Key⟩]⟩ ::
            frames.enum.flatMap (fun iframe =>
              match iframe.2.as_object with
              | some frame =>
                push_frame_lines iframe.1 frame 2 ++
                (if iframe.1 + 1 < frames.length then [empty_line 2] else [])
              | none => [])
        locationLines ++ stackLines
      | none => []
    let metaLines :=
      match jsonGet content "meta" with
      | some meta =>
        match meta with
        | .null => []
        | .arr [] => []
        | _ => push_value_lines 1 "meta" meta
      | none => []
    let otherLines := content.flatMap (fun kv =>
      if kv.1 = "class" ∨ kv.1 = "message" ∨ kv.1 = "frames" ∨ kv.1 = "meta"
      then []
      else push_value_lines 1 kv.1 kv.2)
    line1 :: (messageLines ++ framesLines ++ metaLines ++ otherLines)

/-- `detail::render_json`. -/
def render_json (payload : Payload) : List DetailLine :=
  let value := (payload.content_object.bind (fun m => jsonGet m "content")).or
    (payload.content_object.map Json.obj)
  match value with
  | some v => (rustLines (to_string_pretty v)).map parse_plain_line
  | none => fallback_lines payload

/-- `detail::render_table_model`. -/
def render_table_model (payload : Payload) (table : TableModel) :
    List DetailLine :=
  label_lines (nonempty_trimmed (payload.content_string "label")) ++
    table.to_lines.map parse_plain_line

/-- `detail::render_table`. -/
def render_table (payload : Payload) : List DetailLine :=
  match payload.content_object with
  | none => fallback_lines payload
  | some content =>
    match (jsonGet content "values").bind Json.as_array with
    | some values =>
      match first_some (fun value => (value.as_str).bind TableModel.from_html)
          values with
      | some model => render_table_model payload model
      | none =>
        if values.isEmpty then [parse_plain_line "(empty table)"]
        else
          match TableModel.from_values values with
          | some table => render_table_model payload table
          | none => fallback_lines payload
    | none =>
      match (jsonGet content "values").bind Json.as_object with
      | some map =>
        let lines :=
          label_lines (nonempty_trimmed ((jsonGet content "label").bind
            Json.as_str)) ++
          (ordered_map_entries map).map (fun kv =>
            detail_key_value kv.1 (json_value_preview kv.2))
        if lines.isEmpty then fallback_lines payload else lines
      | none => fallback_lines payload

/-- `detail::render_custom`. -/
def render_custom (payload : Payload) : List DetailLine :=
  match payload.content_object with
  | some object =>
    match (jsonGet object "content").bind Json.as_str with
    | some content =>
      let raw_label := nonempty_trimmed ((jsonGet object "label").bind Json.as_str)
      if contains_sf_dump content then render_sf_dump content raw_label
      else if (raw_label.map (fun l => eq_ignore_case l "count")).getD false then
        render_count content raw_label
      else if (raw_label.map (fun l => eq_ignore_case l "image")).getD false ∨
          contains_image_tag content then
        [parse_plain_line ((extract_image_src content).getD (rustTrim content))]
      else
        let is_default_html_label :=
          (raw_label.map (fun l => eq_ignore_case l "html")).getD false
        if looks_like_html content ∨ is_default_html_label then
          render_html (if is_default_html_label then none else raw_label) content
        else fallback_lines payload
    | none => fallback_lines payload
  | none => fallback_lines payload

/-- `detail::payload_label` — the kind label shown in the header. -/
def payload_label (payload : Payload) : String :=
  match payload.kind with
  | .Log => "log"
  | .Custom =>
    let content := (payload.content_object.bind (fun m => jsonGet m "content")).bind
      Json.as_str
    let raw_label := nonempty_trimmed (payload.content_string "label")
    let has_image_label :=
      (raw_label.map (fun l => eq_ignore_case l "image")).getD false
    let looks_image := (content.map contains_image_tag).getD false
    if has_image_label ∨ looks_image then "image"
    else
      let has_html_label :=
        (raw_label.map (fun l => eq_ignore_case l "html")).getD false ∨
        (content.map looks_like_html).getD false
      if has_html_label then "html"
      else
        match raw_label with
        | some label => label
        | none => "custom"
  | .CreateLock => "create_lock"
  | .ClearAll => "clear_all"
  | .Hide => "hide"
  | .ShowApp => "show_app"
  | .ShowBrowser => "show_browser"
  | .Notify => "notify"
  | .Separator => "separator"
  | .Exception => "exception"
  | .Table => "table"
  | .Text => "text"
  | .Image => "image"
  | .JsonString => "json_string"
  | .DecodedJson => "decoded_json"
  | .Boolean => "boolean"
  | .Size => "size"
  | .Color => "color"
  | .Label => "label"
  | .Trace => "trace"
  | .Caller => "caller"
  | .Measure => "measure"
  | .PhpInfo => "phpinfo"
  | .NewScreen => "new_screen"
  | .Remove => "remove"
  | .HideApp => "hide_app"
  | .Ban => "ban"
  | .Charles => "charles"
  | .Unknown _ => "unknown"

/-- `detail::humanize_timestamp` — note: this formats the event's
`received_at` instant as whole seconds **since the Unix epoch** (or `"now"`
for pre-epoch instants); it does not consult the current time at all. -/
def humanize_timestamp (time : Int) : String :=
  if time < 0 then "now" else toString time.toNat ++ "s"

/-- `detail::build_detail_view`. -/
def build_detail_view (payload : Payload) (received_at : Int) : DetailViewModel :=
  let header := payload_label payload ++ " • " ++ humanize_timestamp received_at
  let footer :=
    match payload.origin with
    | some origin =>
      match origin.file with
      | some file =>
        match origin.line_number with
        | some line => file ++ ":" ++ toString line
        | none => file
      | none => ""
    | none => ""
  let lines :=
    match payload.kind with
    | .Log => render_log payload
    | .Text => render_text payload
    | .Table => render_table payload
    | .Custom => render_custom payload
    | .Label => render_label payload
    | .Trace => render_trace payload
    | .Exception => render_exception payload
    | .Measure => render_measure payload
    | .Caller => render_caller payload
    | .DecodedJson | .JsonString => render_json payload
    | _ => fallback_lines payload
  ⟨header, footer, lines⟩


/-! ### `app::flatten` — summarization whitespace normalization -/

/-- The word-splitting loop of `str::split_whitespace`: `acc` holds the
characters of the word in progress, reversed. -/
def wordsAux (acc : List Char) : List Char → List (List Char)
  | [] => if acc.isEmpty then [] else [acc.reverse]
  | c :: cs =>
    if isRustWs c then
      if acc.isEmpty then wordsAux [] cs
      else acc.reverse :: wordsAux [] cs
    else wordsAux (c :: acc) cs

/-- `str::split_whitespace` (Unicode whitespace, empty pieces dropped). -/
def splitWhitespace (cs : List Char) : List (List Char) := wordsAux [] cs

/-- `app::flatten` — decode HTML entities, then collapse whitespace runs to
single spaces (`split_whitespace().collect::<Vec<_>>().join(" ")`, stated
at the character level). -/
def flatten (text : String) : String :=
  let decoded := decodeChars text.data
  String.mk (List.intercalate [' '] (splitWhitespace decoded))

/-! ### Concrete payloads, requests and states used by witnesses -/

/-- `{type:"log", content:{values:["hello"], meta:[]}}`. -/
def log_payload_hello : Payload :=
  ⟨.Log, .obj [("values", .arr [.str "hello"]), ("meta", .arr [])], none⟩

/-- `{type:"log", content:{values:["data"], meta:[]}}`. -/
def log_payload_data : Payload :=
  ⟨.Log, .obj [("values", .arr [.str "data"]), ("meta", .arr [])], none⟩

/-- A log whose first meta entry has no `clipboard_data` but whose second
one carries `"X"`. -/
def log_payload_hello_clipboard : Payload :=
  ⟨.Log, .obj [("values", .arr [.str "hello"]),
    ("meta", .arr [.obj [], .obj [("clipboard_data", .str "X")]])], none⟩

/-- `{type:"color", content:{color:"green"}}`. -/
def color_payload_green : Payload :=
  ⟨.Color, .obj [("color", .str "green")], none⟩

/-- `{type:"clear_all", content:{}}`. -/
def clear_all_payload : Payload := ⟨.ClearAll, .obj [], none⟩

/-- `{type:"create_lock", content:{name:"L"}}`. -/
def create_lock_payload : Payload :=
  ⟨.CreateLock, .obj [("name", .str "L")], none⟩

/-- `{type:"quantum_flux", content:{data:1}}` — an unknown kind. -/
def unknown_payload : Payload :=
  ⟨.Unknown "quantum_flux", .obj [("data", .num 1)], none⟩

/-- `{type:"trace", content:{frames:[]}}`. -/
def trace_payload : Payload := ⟨.Trace, .obj [("frames", .arr [])], none⟩

/-- `{type:"new_screen", content:{name: name}}`. -/
def new_screen_payload (name : String) : Payload :=
  ⟨.NewScreen, .obj [("name", .str name)], none⟩

/-- A request with the given uuid, payloads, and empty meta. -/
def req_of (uuid : String) (ps : List Payload) : RayRequest := ⟨uuid, ps, []⟩

/-- A recorded `log{values:["hello"]}` event. -/
def hello_event : TimelineEvent :=
  ⟨1, 0, req_of "u1" [log_payload_hello], none, none, none⟩

/-- A store holding just `hello_event`. -/
def one_event_state : StateInner := ⟨[hello_event], [], none⟩

/-- A recorded solitary-log event whose clipboard text sits in `meta[1]`. -/
def clipboard_event : TimelineEvent :=
  ⟨1, 0, req_of "u1" [log_payload_hello_clipboard], none, none, none⟩

/-- A store holding just `clipboard_event`. -/
def clipboard_state : StateInner := ⟨[clipboard_event], [], none⟩

/-- Modelled from the claim wording of C4, for comparison with the code's
`extract_single_log_message`: "the tail's first non-empty string value,
preferring `meta[0].clipboard_data` if present" — i.e. the clipboard text is
taken only from the first meta entry. -/
def spec_first_log_message (ev : TimelineEvent) : Option String :=
  match ev.request.payloads.head? with
  | none => none
  | some payload =>
    let clip0 :=
      (((payload.content_object.bind (fun map => jsonGet map "meta")).bind
          Json.as_array).bind (fun items => items.head?)).bind
        (fun m => (m.getKey "clipboard_data").bind Json.as_str)
    match clip0 with
    | some c => some c
    | none =>
      ((payload.content_object.bind (fun map => jsonGet map "values")).bind
          Json.as_array).bind
        (first_some fun value =>
          (value.as_str).bind (fun t =>
            let trimmed := rustTrim t
            if trimmed = "" then none else some trimmed))

/-! ## Basic lemmas about one payload step -/

theorem apply_step_timeline_sublist (acc : ApplyAcc) (p : Payload) :
    (apply_step acc p).st.timeline.Sublist acc.st.timeline := by
  unfold apply_step
  cases p.kind <;>
    simp only [is_displayable_kind] <;>
    (try split) <;>
    (try split) <;>
    first
      | exact List.Sublist.refl _
      | exact List.nil_sublist _
      | exact List.dropLast_sublist _

theorem apply_step_outcome (acc : ApplyAcc) (p : Payload) :
    (apply_step acc p).outcome =
      (if is_skip_kind p.kind then .Skip else acc.outcome) := by
  unfold apply_step
  cases p.kind <;>
    simp only [is_displayable_kind, is_skip_kind] <;>
    (try split) <;>
    (try split) <;>
    (first | rfl | simp_all | simp)

theorem apply_step_displayable (acc : ApplyAcc) (p : Payload) :
    (apply_step acc p).displayable =
      (acc.displayable || is_displayable_kind p.kind) := by
  unfold apply_step
  cases p.kind <;>
    simp only [is_displayable_kind] <;>
    (try split) <;>
    (try split) <;>
    (first | rfl | simp_all | simp)

theorem apply_step_ev_id (acc : ApplyAcc) (p : Payload) :
    (apply_step acc p).ev.id = acc.ev.id := by
  unfold apply_step
  cases p.kind <;>
    simp only [is_displayable_kind] <;>
    (try split) <;>
    (try split) <;>
    (first | rfl | simp_all | simp)

theorem apply_step_ev_request (acc : ApplyAcc) (p : Payload) :
    (apply_step acc p).ev.request = acc.ev.request := by
  unfold apply_step
  cases p.kind <;>
    simp only [is_displayable_kind] <;>
    (try split) <;>
    (try split) <;>
    (first | rfl | simp_all | simp)

theorem apply_step_timeline_of_not_skip_kind (acc : ApplyAcc) (p : Payload)
    (h : is_skip_kind p.kind = false) :
    (apply_step acc p).st.timeline = acc.st.timeline := by
  unfold apply_step
  revert h
  cases p.kind <;> intro h <;>
    simp only [is_skip_kind] at h <;>
    (try split) <;>
    (try split) <;>
    (first | rfl | simp_all | simp)

theorem apply_step_ev_label (acc : ApplyAcc) (p : Payload) :
    (apply_step acc p).ev.label =
      ((if p.kind = .Label then p.content_string "label" else none).or
        acc.ev.label) := by
  unfold apply_step
  cases p.kind <;>
    simp only [is_displayable_kind] <;>
    (try split) <;>
    (try split) <;>
    (first | rfl | simp_all [Option.or] | simp [Option.or])

theorem apply_step_ev_screen (acc : ApplyAcc) (p : Payload) :
    (apply_step acc p).ev.screen =
      ((if p.kind = .NewScreen then
          (p.content_string "name").map sanitize_screen_name
        else none).or acc.ev.screen) := by
  unfold apply_step
  cases p.kind <;>
    simp only [is_displayable_kind] <;>
    (try split) <;>
    (try split) <;>
    (first | rfl | simp_all [Option.or] | simp [Option.or])

theorem apply_step_current_screen_of_not_clear (acc : ApplyAcc) (p : Payload)
    (h : p.kind ≠ .ClearAll) :
    (apply_step acc p).st.current_screen =
      ((if p.kind = .NewScreen then
          (p.content_string "name").map sanitize_screen_name
        else none).or acc.st.current_screen) := by
  unfold apply_step
  revert h
  cases p.kind <;> intro h <;>
    simp only [is_displayable_kind] <;>
    (try split) <;>
    (try split) <;>
    (first | rfl | simp_all [Option.or] | simp [Option.or])

/-! ## Lemmas about the whole payload pass -/

theorem foldl_apply_step_timeline_sublist (ps : List Payload) (acc : ApplyAcc) :
    (ps.foldl apply_step acc).st.timeline.Sublist acc.st.timeline := by
  induction ps generalizing acc with
  | nil => exact List.Sublist.refl _
  | cons p ps ih =>
    exact (ih (apply_step acc p)).trans (apply_step_timeline_sublist acc p)

theorem foldl_apply_step_outcome_skip (ps : List Payload) (acc : ApplyAcc)
    (h : acc.outcome = .Skip) : (ps.foldl apply_step acc).outcome = .Skip := by
  induction ps generalizing acc with
  | nil => exact h
  | cons p ps ih =>
    refine ih (apply_step acc p) ?_
    rw [apply_step_outcome]
    split <;> simp [h]

theorem foldl_apply_step_outcome_of_no_skip_kind (ps : List Payload) (acc : ApplyAcc)
    (h : ∀ p ∈ ps, is_skip_kind p.kind = false) :
    (ps.foldl apply_step acc).outcome = acc.outcome := by
  induction ps generalizing acc with
  | nil => rfl
  | cons p ps ih =>
    have hp := h p (by simp)
    have := ih (apply_step acc p) (fun q hq => h q (by simp [hq]))
    rw [List.foldl_cons, this, apply_step_outcome, hp]
    simp

theorem foldl_apply_step_outcome_of_skip_mem (ps : List Payload) (acc : ApplyAcc)
    (h : ∃ p ∈ ps, is_skip_kind p.kind = true) :
    (ps.foldl apply_step acc).outcome = .Skip := by
  induction ps generalizing acc with
  | nil => simp at h
  | cons p ps ih =>
    rcases h with ⟨q, hq, hsk⟩
    rcases List.mem_cons.mp hq with rfl | hmem
    · refine foldl_apply_step_outcome_skip ps (apply_step acc q) ?_
      rw [apply_step_outcome, hsk]
      simp
    · exact ih (apply_step acc p) ⟨q, hmem, hsk⟩

theorem foldl_apply_step_displayable (ps : List Payload) (acc : ApplyAcc) :
    (ps.foldl apply_step acc).displayable =
      (acc.displayable || ps.any (fun p => is_displayable_kind p.kind)) := by
  induction ps generalizing acc with
  | nil => simp
  | cons p ps ih =>
    rw [List.foldl_cons, ih (apply_step acc p), apply_step_displayable]
    simp [Bool.or_assoc]

theorem foldl_apply_step_ev_id (ps : List Payload) (acc : ApplyAcc) :
    (ps.foldl apply_step acc).ev.id = acc.ev.id := by
  induction ps generalizing acc with
  | nil => rfl
  | cons p ps ih => rw [List.foldl_cons, ih (apply_step acc p), apply_step_ev_id]

theorem foldl_apply_step_ev_request (ps : List Payload) (acc : ApplyAcc) :
    (ps.foldl apply_step acc).ev.request = acc.ev.request := by
  induction ps generalizing acc with
  | nil => rfl
  | cons p ps ih => rw [List.foldl_cons, ih (apply_step acc p), apply_step_ev_request]

theorem foldl_apply_step_timeline_of_no_skip_kind (ps : List Payload) (acc : ApplyAcc)
    (h : ∀ p ∈ ps, is_skip_kind p.kind = false) :
    (ps.foldl apply_step acc).st.timeline = acc.st.timeline := by
  induction ps generalizing acc with
  | nil => rfl
  | cons p ps ih =>
    rw [List.foldl_cons, ih (apply_step acc p) (fun q hq => h q (by simp [hq])),
      apply_step_timeline_of_not_skip_kind acc p (h p (by simp))]

theorem foldl_or_shift (u : Payload → Option String) (ps : List Payload)
    (init : Option String) :
    ps.foldl (fun cur p => (u p).or cur) init = (last_update u ps).or init := by
  induction ps generalizing init with
  | nil => simp [last_update]
  | cons p ps ih =>
    rw [List.foldl_cons, ih ((u p).or init)]
    have h2 : last_update u (p :: ps) = (last_update u ps).or (u p) := by
      unfold last_update
      rw [List.foldl_cons, ih ((u p).or none)]
      simp [last_update]
    rw [h2, Option.or_assoc]

theorem foldl_apply_step_ev_label (ps : List Payload) (acc : ApplyAcc) :
    (ps.foldl apply_step acc).ev.label =
      (last_update label_update ps).or acc.ev.label := by
  induction ps generalizing acc with
  | nil => simp [last_update]
  | cons p ps ih =>
    rw [List.foldl_cons, ih (apply_step acc p), apply_step_ev_label]
    have h2 : last_update label_update (p :: ps) =
        (last_update label_update ps).or (label_update p) := by
      unfold last_update
      rw [List.foldl_cons, foldl_or_shift]
      simp [last_update, Option.or_assoc]
    rw [h2, Option.or_assoc, label_update]

theorem foldl_apply_step_ev_screen (ps : List Payload) (acc : ApplyAcc) :
    (ps.foldl apply_step acc).ev.screen =
      (last_update screen_update ps).or acc.ev.screen := by
  induction ps generalizing acc with
  | nil => simp [last_update]
  | cons p ps ih =>
    rw [List.foldl_cons, ih (apply_step acc p), apply_step_ev_screen]
    have h2 : last_update screen_update (p :: ps) =
        (last_update screen_update ps).or (screen_update p) := by
      unfold last_update
      rw [List.foldl_cons, foldl_or_shift]
      simp [last_update, Option.or_assoc]
    rw [h2, Option.or_assoc, screen_update]

theorem foldl_apply_step_current_screen (ps : List Payload) (acc : ApplyAcc)
    (h : ∀ p ∈ ps, p.kind ≠ .ClearAll) :
    (ps.foldl apply_step acc).st.current_screen =
      (last_update screen_update ps).or acc.st.current_screen := by
  induction ps generalizing acc with
  | nil => simp [last_update]
  | cons p ps ih =>
    rw [List.foldl_cons, ih (apply_step acc p) (fun q hq => h q (by simp [hq])),
      apply_step_current_screen_of_not_clear acc p (h p (by simp))]
    have h2 : last_update screen_update (p :: ps) =
        (last_update screen_update ps).or (screen_update p) := by
      unfold last_update
      rw [List.foldl_cons, foldl_or_shift]
      simp [last_update, Option.or_assoc]
    rw [h2, Option.or_assoc, screen_update]

/-! ## Lemmas about tail mutation and the post-loop block -/

theorem update_tail_nil (f : TimelineEvent → TimelineEvent) :
    update_tail f [] = [] := rfl

theorem update_tail_concat (f : TimelineEvent → TimelineEvent)
    (tl : List TimelineEvent) (e : TimelineEvent) :
    update_tail f (tl ++ [e]) = tl ++ [f e] := by
  simp [update_tail]

theorem update_tail_length (f : TimelineEvent → TimelineEvent)
    (l : List TimelineEvent) : (update_tail f l).length = l.length := by
  rcases List.eq_nil_or_concat l with rfl | ⟨tl, e, rfl⟩
  · rfl
  · rw [List.concat_eq_append, update_tail_concat]
    simp

theorem update_tail_map_id (f : TimelineEvent → TimelineEvent)
    (hf : ∀ e, (f e).id = e.id) (l : List TimelineEvent) :
    (update_tail f l).map (·.id) = l.map (·.id) := by
  rcases List.eq_nil_or_concat l with rfl | ⟨tl, e, rfl⟩
  · rfl
  · rw [List.concat_eq_append, update_tail_concat]
    simp [hf]

theorem finish_acc_outcome (acc : ApplyAcc) :
    (finish_acc acc).outcome = if acc.displayable then acc.outcome else .Skip := by
  unfold finish_acc
  split <;> simp

theorem finish_acc_ev (acc : ApplyAcc) : (finish_acc acc).ev = acc.ev := by
  unfold finish_acc
  split <;> rfl

theorem finish_acc_of_displayable (acc : ApplyAcc) (h : acc.displayable = true) :
    finish_acc acc = acc := by
  unfold finish_acc
  rw [h]
  simp

theorem finish_acc_locks (acc : ApplyAcc) : (finish_acc acc).st.locks = acc.st.locks := by
  unfold finish_acc
  split
  · rfl
  · split <;> split <;> rfl

theorem finish_acc_current_screen (acc : ApplyAcc) :
    (finish_acc acc).st.current_screen = acc.st.current_screen := by
  unfold finish_acc
  split
  · rfl
  · split <;> split <;> rfl

theorem finish_acc_timeline_length (acc : ApplyAcc) :
    (finish_acc acc).st.timeline.length = acc.st.timeline.length := by
  unfold finish_acc
  split
  · rfl
  · split <;> split <;> simp [update_tail_length]

theorem update_tail_color_map_id (c : String) (l : List TimelineEvent) :
    (update_tail (fun e => { e with color := some c }) l).map (·.id) =
      l.map (·.id) :=
  update_tail_map_id (fun e => { e with color := some c }) (fun _ => rfl) l

theorem update_tail_label_map_id (v : String) (l : List TimelineEvent) :
    (update_tail (fun e => { e with label := some v }) l).map (·.id) =
      l.map (·.id) :=
  update_tail_map_id (fun e => { e with label := some v }) (fun _ => rfl) l

theorem finish_acc_timeline_map_id (acc : ApplyAcc) :
    (finish_acc acc).st.timeline.map (·.id) = acc.st.timeline.map (·.id) := by
  unfold finish_acc
  split
  · rfl
  · split <;> split <;>
      simp only [update_tail_color_map_id, update_tail_label_map_id]

/-! ## Lemmas about the log-merge step -/

theorem merge_timeline_length_le (s : StateInner) (ev : TimelineEvent) :
    (merge_previous_log_into_context s ev).1.timeline.length ≤ s.timeline.length := by
  unfold merge_previous_log_into_context
  split
  · exact le_refl _
  · split <;> simp [List.length_dropLast]
    all_goals omega

theorem merge_ev_id (s : StateInner) (ev : TimelineEvent) :
    (merge_previous_log_into_context s ev).2.id = ev.id := by
  unfold merge_previous_log_into_context
  split
  · rfl
  · split
    · split <;> rfl
    · rfl

theorem merge_ev_screen (s : StateInner) (ev : TimelineEvent) :
    (merge_previous_log_into_context s ev).2.screen = ev.screen := by
  unfold merge_previous_log_into_context
  split
  · rfl
  · split
    · split <;> rfl
    · rfl

theorem merge_current_screen (s : StateInner) (ev : TimelineEvent) :
    (merge_previous_log_into_context s ev).1.current_screen = s.current_screen := by
  unfold merge_previous_log_into_context
  split
  · rfl
  · split <;> rfl

theorem merge_locks (s : StateInner) (ev : TimelineEvent) :
    (merge_previous_log_into_context s ev).1.locks = s.locks := by
  unfold merge_previous_log_into_context
  split
  · rfl
  · split <;> rfl

theorem merge_timeline_map_id_sublist (s : StateInner) (ev : TimelineEvent) :
    ((merge_previous_log_into_context s ev).1.timeline.map (·.id)).Sublist
      (s.timeline.map (·.id)) := by
  unfold merge_previous_log_into_context
  split
  · exact List.Sublist.refl _
  · split
    · exact (List.dropLast_sublist _).map _
    · exact List.Sublist.refl _


/-! ## Projections of the whole fold and of record_request -/

theorem apply_payloads_fst (s : StateInner) (ev : TimelineEvent) :
    (apply_payloads s ev).1 = (finish_acc (pass_acc s ev)).outcome := rfl

theorem apply_payloads_snd_fst (s : StateInner) (ev : TimelineEvent) :
    (apply_payloads s ev).2.1 = (finish_acc (pass_acc s ev)).st := rfl

theorem apply_payloads_snd_snd (s : StateInner) (ev : TimelineEvent) :
    (apply_payloads s ev).2.2 =
      inherit_screen (finish_acc (pass_acc s ev)).st
        (finish_acc (pass_acc s ev)).ev := rfl

theorem inherit_screen_id (s : StateInner) (ev : TimelineEvent) :
    (inherit_screen s ev).id = ev.id := by
  unfold inherit_screen
  split <;> rfl

theorem inherit_screen_request (s : StateInner) (ev : TimelineEvent) :
    (inherit_screen s ev).request = ev.request := by
  unfold inherit_screen
  split <;> rfl

theorem inherit_screen_screen (s : StateInner) (ev : TimelineEvent) :
    (inherit_screen s ev).screen = ev.screen.or s.current_screen := by
  unfold inherit_screen
  cases hsc : ev.screen <;> simp [Option.or, hsc]

theorem push_event_fst (retention : Nat) (s2 : StateInner) (ev3 : TimelineEvent) :
    (push_event retention s2 ev3).1 = some ev3 := rfl

theorem push_event_locks (retention : Nat) (s2 : StateInner) (ev3 : TimelineEvent) :
    (push_event retention s2 ev3).2.locks = s2.locks := rfl

theorem push_event_current_screen (retention : Nat) (s2 : StateInner)
    (ev3 : TimelineEvent) :
    (push_event retention s2 ev3).2.current_screen = s2.current_screen := rfl

theorem push_event_timeline (retention : Nat) (s2 : StateInner) (ev3 : TimelineEvent) :
    (push_event retention s2 ev3).2.timeline =
      (if s2.timeline.length + 1 > retention
       then (s2.timeline ++ [ev3]).tail else s2.timeline ++ [ev3]) := by
  simp [push_event]

theorem push_event_length_le (retention : Nat) (s2 : StateInner) (ev3 : TimelineEvent)
    (h : s2.timeline.length ≤ retention) :
    (push_event retention s2 ev3).2.timeline.length ≤ retention := by
  rw [push_event_timeline]
  split
  · simp only [List.length_tail, List.length_append, List.length_singleton]
    omega
  · rename_i hle
    simp only [List.length_append, List.length_singleton]
    omega

theorem mem_push_list (l : List TimelineEvent) (e : TimelineEvent) (r : Nat)
    (h : 0 < r) :
    e ∈ (if l.length + 1 > r then (l ++ [e]).tail else l ++ [e]) := by
  split
  · rename_i hgt
    cases l with
    | nil =>
      simp at hgt
      omega
    | cons x xs => simp
  · simp

theorem mem_push_event (retention : Nat) (s2 : StateInner) (ev3 : TimelineEvent)
    (h : 0 < retention) : ev3 ∈ (push_event retention s2 ev3).2.timeline := by
  rw [push_event_timeline]
  exact mem_push_list _ _ _ h

theorem pass_acc_timeline_sublist (s : StateInner) (ev : TimelineEvent) :
    (pass_acc s ev).st.timeline.Sublist s.timeline :=
  foldl_apply_step_timeline_sublist _ _

theorem apply_payloads_timeline_length_le (s : StateInner) (ev : TimelineEvent) :
    (apply_payloads s ev).2.1.timeline.length ≤ s.timeline.length := by
  rw [apply_payloads_snd_fst, finish_acc_timeline_length]
  exact (pass_acc_timeline_sublist s ev).length_le

theorem apply_payloads_timeline_map_id_sublist (s : StateInner) (ev : TimelineEvent) :
    ((apply_payloads s ev).2.1.timeline.map (·.id)).Sublist
      (s.timeline.map (·.id)) := by
  rw [apply_payloads_snd_fst, finish_acc_timeline_map_id]
  exact (pass_acc_timeline_sublist s ev).map _

theorem apply_payloads_ev_id (s : StateInner) (ev : TimelineEvent) :
    (apply_payloads s ev).2.2.id = ev.id := by
  rw [apply_payloads_snd_snd, inherit_screen_id, finish_acc_ev]
  unfold pass_acc
  rw [foldl_apply_step_ev_id]

theorem apply_payloads_ev_request (s : StateInner) (ev : TimelineEvent) :
    (apply_payloads s ev).2.2.request = ev.request := by
  rw [apply_payloads_snd_snd, inherit_screen_request, finish_acc_ev]
  unfold pass_acc
  rw [foldl_apply_step_ev_request]

theorem record_request_of_skip (retention : Nat) (s : StateInner)
    (request : RayRequest) (fid : Nat) (now : Int)
    (h : (apply_payloads s
        ⟨fid, now, request, extract_screen_from_meta request.meta, none, none⟩).1 =
      .Skip) :
    record_request retention s request fid now =
      (none, (apply_payloads s
        ⟨fid, now, request, extract_screen_from_meta request.meta, none, none⟩).2.1) := by
  simp [record_request, h]

theorem record_request_of_record (retention : Nat) (s : StateInner)
    (request : RayRequest) (fid : Nat) (now : Int)
    (h : (apply_payloads s
        ⟨fid, now, request, extract_screen_from_meta request.meta, none, none⟩).1 =
      .Record) :
    record_request retention s request fid now =
      push_event retention
        (merge_previous_log_into_context
          (apply_payloads s
            ⟨fid, now, request, extract_screen_from_meta request.meta, none, none⟩).2.1
          (apply_payloads s
            ⟨fid, now, request, extract_screen_from_meta request.meta, none, none⟩).2.2).1
        (inherit_screen
          (merge_previous_log_into_context
            (apply_payloads s
              ⟨fid, now, request, extract_screen_from_meta request.meta, none, none⟩).2.1
            (apply_payloads s
              ⟨fid, now, request, extract_screen_from_meta request.meta, none, none⟩).2.2).1
          (merge_previous_log_into_context
            (apply_payloads s
              ⟨fid, now, request, extract_screen_from_meta request.meta, none, none⟩).2.1
            (apply_payloads s
              ⟨fid, now, request, extract_screen_from_meta request.meta, none, none⟩).2.2).2) := by
  simp [record_request, h]

/-! ## C2 — retention bound -/

/-- C2: after any `record_request` on a store whose timeline respects the
retention bound, the resulting timeline still holds at most `retention`
events; and whenever an event is actually recorded, the new timeline is the
push of the event onto some bounded prefix state, with the oldest (head)
entry evicted exactly when the push would exceed the bound. -/
theorem record_request_retention_bound (retention : Nat) (s : StateInner)
    (request : RayRequest) (fid : Nat) (now : Int)
    (h : s.timeline.length ≤ retention) :
    ((record_request retention s request fid now).2.timeline.length ≤ retention) ∧
    (∀ e, (record_request retention s request fid now).1 = some e →
      ∃ tl : List TimelineEvent, tl.length ≤ retention ∧
        (record_request retention s request fid now).2.timeline =
          (if tl.length + 1 > retention then (tl ++ [e]).tail else tl ++ [e])) := by
  cases ho : (apply_payloads s
      ⟨fid, now, request, extract_screen_from_meta request.meta, none, none⟩).1 with
  | Skip =>
    rw [record_request_of_skip retention s request fid now ho]
    refine ⟨le_trans (apply_payloads_timeline_length_le s _) h, ?_⟩
    intro e he
    simp at he
  | Record =>
    rw [record_request_of_record retention s request fid now ho]
    have hm : (merge_previous_log_into_context
        (apply_payloads s
          ⟨fid, now, request, extract_screen_from_meta request.meta, none, none⟩).2.1
        (apply_payloads s
          ⟨fid, now, request, extract_screen_from_meta request.meta, none, none⟩).2.2).1.timeline.length ≤
        retention :=
      le_trans (merge_timeline_length_le _ _)
        (le_trans (apply_payloads_timeline_length_le s _) h)
    constructor
    · exact push_event_length_le _ _ _ hm
    · intro e he
      rw [push_event_fst] at he
      injection he with he3
      refine ⟨(merge_previous_log_into_context
        (apply_payloads s
          ⟨fid, now, request, extract_screen_from_meta request.meta, none, none⟩).2.1
        (apply_payloads s
          ⟨fid, now, request, extract_screen_from_meta request.meta, none, none⟩).2.2).1.timeline,
        hm, ?_⟩
      rw [← he3, push_event_timeline]

/-- Witness for C2 at a concrete input: recording a basic log request into
the empty store under the default retention. -/
theorem record_request_retention_bound_witness :
    StateInner.default.timeline.length ≤ 1024 ∧
    (((record_request 1024 StateInner.default (req_of "u1" [log_payload_hello]) 1 0).2.timeline.length ≤ 1024) ∧
    (∀ e, (record_request 1024 StateInner.default (req_of "u1" [log_payload_hello]) 1 0).1 = some e →
      ∃ tl : List TimelineEvent, tl.length ≤ 1024 ∧
        (record_request 1024 StateInner.default (req_of "u1" [log_payload_hello]) 1 0).2.timeline =
          (if tl.length + 1 > 1024 then (tl ++ [e]).tail else tl ++ [e]))) :=
  ⟨by decide,
   record_request_retention_bound 1024 StateInner.default
     (req_of "u1" [log_payload_hello]) 1 0 (by decide)⟩


/-! ## C1 — what `record_request` returning `Some` means -/

/-- C1 counterexample: the claim says `record_request` returns `Some` iff the
resulting state added **or modified** a visible event. A sole `color` request
on a non-empty timeline modifies the tail event's color (from `none` to
`some "green"`), yet `record_request` returns `none`. -/
theorem record_request_some_iff_counterexample :
    (record_request 1024 one_event_state (req_of "u2" [color_payload_green]) 2 1).1 =
      none ∧
    ((record_request 1024 one_event_state
        (req_of "u2" [color_payload_green]) 2 1).2.timeline.map (fun e => e.color)) =
      [some "green"] ∧
    one_event_state.timeline.map (fun e => e.color) = [none] :=
  ⟨rfl, rfl, rfl⟩

/-- C1 (amended): `record_request` returns `Some` iff it appended a new event
to the timeline (iff the freshly drafted id occurs in the resulting
timeline). Requests that only mutate the tail event's color or label, or that
only affect locks, the screen, or clearing, return `None` even though they
may modify visible state. -/
theorem record_request_some_iff_appended (retention : Nat) (s : StateInner)
    (request : RayRequest) (fid : Nat) (now : Int)
    (hr : 0 < retention)
    (hfresh : ∀ e ∈ s.timeline, e.id ≠ fid) :
    ((record_request retention s request fid now).1.isSome = true) ↔
      (∃ e ∈ (record_request retention s request fid now).2.timeline, e.id = fid) := by
  cases ho : (apply_payloads s
      ⟨fid, now, request, extract_screen_from_meta request.meta, none, none⟩).1 with
  | Skip =>
    rw [record_request_of_skip retention s request fid now ho]
    simp only [Option.isSome_none, Bool.false_eq_true, false_iff]
    rintro ⟨e, he, hid⟩
    have h1 : e.id ∈ ((apply_payloads s
        ⟨fid, now, request, extract_screen_from_meta request.meta, none,
          none⟩).2.1.timeline.map (·.id)) :=
      List.mem_map_of_mem _ he
    have h2 := (apply_payloads_timeline_map_id_sublist s
        ⟨fid, now, request, extract_screen_from_meta request.meta, none,
          none⟩).subset h1
    rw [List.mem_map] at h2
    rcases h2 with ⟨x, hx, hxid⟩
    exact hfresh x hx (by rw [hxid, hid])
  | Record =>
    rw [record_request_of_record retention s request fid now ho]
    constructor
    · intro _
      refine ⟨inherit_screen _ _, mem_push_event _ _ _ hr, ?_⟩
      rw [inherit_screen_id, merge_ev_id, apply_payloads_ev_id]
    · intro _
      rw [push_event_fst]
      rfl

/-- Witness for C1 at a concrete input: a fresh log request appended to a
store that already holds one event. -/
theorem record_request_some_iff_appended_witness :
    0 < 1024 ∧ (∀ e ∈ one_event_state.timeline, e.id ≠ 2) ∧
    (((record_request 1024 one_event_state (req_of "u2" [log_payload_data]) 2 1).1.isSome = true) ↔
      (∃ e ∈ (record_request 1024 one_event_state
          (req_of "u2" [log_payload_data]) 2 1).2.timeline, e.id = 2)) :=
  ⟨by decide,
   by
    intro e he
    have h1 : e = hello_event := by simpa [one_event_state] using he
    rw [h1]
    decide,
   record_request_some_iff_appended 1024 one_event_state
     (req_of "u2" [log_payload_data]) 2 1 (by decide)
     (by
       intro e he
       have h1 : e = hello_event := by simpa [one_event_state] using he
       rw [h1]
       decide)⟩

/-! ## C7 — requests whose payloads are all of unknown kind -/

theorem apply_step_unknown (acc : ApplyAcc) (p : Payload) (name : String)
    (h : p.kind = .Unknown name) : apply_step acc p = acc := by
  unfold apply_step
  rw [h]
  simp [is_displayable_kind]

theorem foldl_apply_step_all_unknown (ps : List Payload) (acc : ApplyAcc)
    (h : ∀ p ∈ ps, ∃ name, p.kind = .Unknown name) :
    ps.foldl apply_step acc = acc := by
  induction ps generalizing acc with
  | nil => rfl
  | cons p ps ih =>
    rcases h p (by simp) with ⟨name, hname⟩
    rw [List.foldl_cons, apply_step_unknown acc p name hname]
    exact ih acc (fun q hq => h q (by simp [hq]))

/-- C7 counterexample: the claim says a request all of whose payloads have
unknown kinds is accepted and stored (`Some`, length + 1). In the code no
unknown kind is in the displayable set, so such a request is skipped:
`record_request` returns `none` and the timeline length does not change. -/
theorem record_request_all_unknown_counterexample :
    (record_request 1024 StateInner.default (req_of "abc" [unknown_payload]) 1 0).1 =
      none ∧
    (record_request 1024 StateInner.default
        (req_of "abc" [unknown_payload]) 1 0).2.timeline.length =
      StateInner.default.timeline.length :=
  ⟨rfl, rfl⟩

/-- C7 (amended): an otherwise-valid request all of whose payload kinds are
unknown is acknowledged by the HTTP layer but yields no timeline event:
`record_request` returns `none` and leaves the store entirely unchanged. -/
theorem record_request_all_unknown (retention : Nat) (s : StateInner)
    (request : RayRequest) (fid : Nat) (now : Int)
    (h : ∀ p ∈ request.payloads, ∃ name, p.kind = .Unknown name) :
    record_request retention s request fid now = (none, s) := by
  have hpass : pass_acc s
      ⟨fid, now, request, extract_screen_from_meta request.meta, none, none⟩ =
      ⟨s, ⟨fid, now, request, extract_screen_from_meta request.meta, none, none⟩,
        false, .Record, none, none⟩ := by
    unfold pass_acc
    exact foldl_apply_step_all_unknown _ _ h
  have hskip : (apply_payloads s
      ⟨fid, now, request, extract_screen_from_meta request.meta, none, none⟩).1 =
      .Skip := by
    rw [apply_payloads_fst, hpass]
    rfl
  rw [record_request_of_skip retention s request fid now hskip,
    apply_payloads_snd_fst, hpass]
  rfl

/-- Witness for C7 (amended) at a concrete input: a request carrying one
`quantum_flux` payload against the empty store. -/
theorem record_request_all_unknown_witness :
    (∀ p ∈ (req_of "abc" [unknown_payload]).payloads, ∃ name, p.kind = .Unknown name) ∧
    record_request 1024 StateInner.default (req_of "abc" [unknown_payload]) 1 0 =
      (none, StateInner.default) :=
  ⟨by
    intro p hp
    have h1 : p = unknown_payload := by simpa [req_of] using hp
    exact ⟨"quantum_flux", by rw [h1]; rfl⟩,
   record_request_all_unknown 1024 StateInner.default (req_of "abc" [unknown_payload]) 1 0
     (by
       intro p hp
       have h1 : p = unknown_payload := by simpa [req_of] using hp
       exact ⟨"quantum_flux", by rw [h1]; rfl⟩)⟩


/-! ## C3 — clear_all -/

theorem apply_step_clear (acc : ApplyAcc) (p : Payload) (h : p.kind = .ClearAll) :
    (apply_step acc p).st.timeline = [] ∧ (apply_step acc p).st.locks = [] ∧
    (apply_step acc p).st.current_screen = none ∧
    (apply_step acc p).outcome = .Skip := by
  unfold apply_step
  rw [h]
  simp [is_displayable_kind]

/-- C3 counterexample: the claim says that after any request containing a
`clear_all` payload the lock registry is empty, regardless of the other
payloads in the request. A `create_lock` payload *after* the `clear_all` in
the same request re-registers its lock, so the registry is non-empty. -/
theorem record_request_clear_all_counterexample :
    (record_request 1024 one_event_state
        (req_of "u" [clear_all_payload, create_lock_payload]) 2 1).1 = none ∧
    (record_request 1024 one_event_state
        (req_of "u" [clear_all_payload, create_lock_payload]) 2 1).2.timeline = [] ∧
    (record_request 1024 one_event_state
        (req_of "u" [clear_all_payload, create_lock_payload]) 2 1).2.locks =
      [("L", ⟨none, none⟩)] :=
  ⟨rfl, rfl, rfl⟩

/-- C3 (amended): for every request containing a `clear_all` payload,
`record_request` returns `none` and afterwards the timeline is empty; the
locks and the current screen are purged at the `clear_all` (so effects of
preceding payloads are discarded), but payloads after the `clear_all` in the
same request still apply their state effects — in particular, when the
`clear_all` is the *last* payload, the lock registry is empty and the screen
is unset. -/
theorem record_request_clear_all (retention : Nat) (s : StateInner)
    (request : RayRequest) (fid : Nat) (now : Int)
    (h : ∃ p ∈ request.payloads, p.kind = .ClearAll) :
    (record_request retention s request fid now).1 = none ∧
    (record_request retention s request fid now).2.timeline = [] ∧
    (∀ ps2 plast, request.payloads = ps2 ++ [plast] → plast.kind = .ClearAll →
      (record_request retention s request fid now).2.locks = [] ∧
      (record_request retention s request fid now).2.current_screen = none) := by
  rcases h with ⟨p, hp, hk⟩
  have hpassk : (pass_acc s
      ⟨fid, now, request, extract_screen_from_meta request.meta, none, none⟩).outcome =
      .Skip := by
    unfold pass_acc
    exact foldl_apply_step_outcome_of_skip_mem _ _ ⟨p, hp, by rw [hk]; rfl⟩
  have hskip : (apply_payloads s
      ⟨fid, now, request, extract_screen_from_meta request.meta, none, none⟩).1 =
      .Skip := by
    rw [apply_payloads_fst, finish_acc_outcome]
    split <;> simp [hpassk]
  have htl : (pass_acc s
      ⟨fid, now, request, extract_screen_from_meta request.meta, none, none⟩).st.timeline =
      [] := by
    rcases List.append_of_mem hp with ⟨l1, l2, hsplit⟩
    unfold pass_acc
    rw [show (⟨fid, now, request, extract_screen_from_meta request.meta, none,
        none⟩ : TimelineEvent).request.payloads = request.payloads from rfl,
      hsplit, List.foldl_append, List.foldl_cons]
    have hclear := (apply_step_clear
      (List.foldl apply_step
        ⟨s, ⟨fid, now, request, extract_screen_from_meta request.meta, none, none⟩,
          false, .Record, none, none⟩ l1) p hk).1
    have hsub := foldl_apply_step_timeline_sublist l2
      (apply_step (List.foldl apply_step
        ⟨s, ⟨fid, now, request, extract_screen_from_meta request.meta, none, none⟩,
          false, .Record, none, none⟩ l1) p)
    rw [hclear] at hsub
    exact List.sublist_nil.mp hsub
  have hres := record_request_of_skip retention s request fid now hskip
  have htl2 : (record_request retention s request fid now).2.timeline = [] := by
    rw [hres, apply_payloads_snd_fst]
    have hlen : (finish_acc (pass_acc s
        ⟨fid, now, request, extract_screen_from_meta request.meta, none,
          none⟩)).st.timeline.length = 0 := by
      rw [finish_acc_timeline_length, htl]
      rfl
    exact List.eq_nil_of_length_eq_zero hlen
  refine ⟨by rw [hres], htl2, ?_⟩
  intro ps2 plast hsplit hk2
  have hlast : pass_acc s
      ⟨fid, now, request, extract_screen_from_meta request.meta, none, none⟩ =
      apply_step (List.foldl apply_step
        ⟨s, ⟨fid, now, request, extract_screen_from_meta request.meta, none, none⟩,
          false, .Record, none, none⟩ ps2) plast := by
    unfold pass_acc
    rw [show (⟨fid, now, request, extract_screen_from_meta request.meta, none,
        none⟩ : TimelineEvent).request.payloads = request.payloads from rfl,
      hsplit, List.foldl_append, List.foldl_cons, List.foldl_nil]
  constructor
  · rw [hres, apply_payloads_snd_fst, finish_acc_locks, hlast]
    exact (apply_step_clear _ plast hk2).2.1
  · rw [hres, apply_payloads_snd_fst, finish_acc_current_screen, hlast]
    exact (apply_step_clear _ plast hk2).2.2.1

/-- Witness for C3 (amended) at a concrete input: `[log, clear_all]` against
a store holding one event, with the `clear_all` in last position. -/
theorem record_request_clear_all_witness :
    (∃ p ∈ (req_of "u" [log_payload_hello, clear_all_payload]).payloads,
      p.kind = .ClearAll) ∧
    ((record_request 1024 one_event_state
        (req_of "u" [log_payload_hello, clear_all_payload]) 2 1).1 = none ∧
     (record_request 1024 one_event_state
        (req_of "u" [log_payload_hello, clear_all_payload]) 2 1).2.timeline = [] ∧
     (∀ ps2 plast,
        (req_of "u" [log_payload_hello, clear_all_payload]).payloads =
          ps2 ++ [plast] →
        plast.kind = .ClearAll →
        (record_request 1024 one_event_state
          (req_of "u" [log_payload_hello, clear_all_payload]) 2 1).2.locks = [] ∧
        (record_request 1024 one_event_state
          (req_of "u" [log_payload_hello, clear_all_payload]) 2 1).2.current_screen =
          none)) :=
  ⟨⟨clear_all_payload, by simp [req_of], rfl⟩,
   record_request_clear_all 1024 one_event_state
     (req_of "u" [log_payload_hello, clear_all_payload]) 2 1
     ⟨clear_all_payload, by simp [req_of], rfl⟩⟩

/-! ## C6 — a sole color payload mutates the tail -/

/-- C6: a request whose only payload is a `color` payload carrying a color,
applied to a store with a non-empty timeline, returns `none` and produces the
same store with only the tail event's color replaced: same length and order,
all other fields of every event untouched, locks and current screen
untouched. -/
theorem record_request_sole_color (retention : Nat) (s : StateInner)
    (uuid : String) (meta : List (String × Json)) (p : Payload) (c : String)
    (fid : Nat) (now : Int)
    (hk : p.kind = .Color) (hc : p.content_string "color" = some c)
    (tl : List TimelineEvent) (last : TimelineEvent)
    (ht : s.timeline = tl ++ [last]) :
    record_request retention s ⟨uuid, [p], meta⟩ fid now =
      (none, { s with timeline := tl ++ [{ last with color := some c }] }) := by
  have hstep : pass_acc s
      ⟨fid, now, ⟨uuid, [p], meta⟩,
        extract_screen_from_meta (⟨uuid, [p], meta⟩ : RayRequest).meta, none, none⟩ =
      ⟨s, { (⟨fid, now, ⟨uuid, [p], meta⟩,
        extract_screen_from_meta (⟨uuid, [p], meta⟩ : RayRequest).meta, none,
        none⟩ : TimelineEvent) with color := some c }, false, .Record, some c,
        none⟩ := by
    unfold pass_acc
    rw [show (⟨fid, now, ⟨uuid, [p], meta⟩,
        extract_screen_from_meta (⟨uuid, [p], meta⟩ : RayRequest).meta, none,
        none⟩ : TimelineEvent).request.payloads = [p] from rfl,
      List.foldl_cons, List.foldl_nil]
    unfold apply_step
    rw [hk, hc]
    simp [is_displayable_kind]
  have hskip : (apply_payloads s
      ⟨fid, now, ⟨uuid, [p], meta⟩,
        extract_screen_from_meta (⟨uuid, [p], meta⟩ : RayRequest).meta, none,
        none⟩).1 = .Skip := by
    rw [apply_payloads_fst, hstep]
    rfl
  rw [record_request_of_skip retention s ⟨uuid, [p], meta⟩ fid now hskip,
    apply_payloads_snd_fst, hstep]
  show (none, { s with
      timeline := update_tail (fun e => { e with color := some c }) s.timeline }) = _
  rw [ht, update_tail_concat]

/-- Witness for C6 at a concrete input: a green color payload against the
one-event store. -/
theorem record_request_sole_color_witness :
    color_payload_green.kind = .Color ∧
    color_payload_green.content_string "color" = some "green" ∧
    one_event_state.timeline = [] ++ [hello_event] ∧
    record_request 1024 one_event_state ⟨"u2", [color_payload_green], []⟩ 2 1 =
      (none, { one_event_state with
        timeline := [] ++ [{ hello_event with color := some "green" }] }) :=
  ⟨rfl, rfl, rfl,
   record_request_sole_color 1024 one_event_state "u2" [] color_payload_green
     "green" 2 1 rfl rfl [] hello_event rfl⟩


/-! ## C4 — the log-merge rule -/

theorem inherit_screen_label (s : StateInner) (ev : TimelineEvent) :
    (inherit_screen s ev).label = ev.label := by
  unfold inherit_screen
  split <;> rfl

theorem apply_payloads_ev_label (s : StateInner) (ev : TimelineEvent) :
    (apply_payloads s ev).2.2.label =
      (last_update label_update ev.request.payloads).or ev.label := by
  rw [apply_payloads_snd_snd, inherit_screen_label, finish_acc_ev]
  unfold pass_acc
  rw [foldl_apply_step_ev_label]

/-- When the current request carries a trace/caller payload and the tail of
the timeline is extractable, `merge_previous_log_into_context` pops the tail
and attaches the message as the label when none is set. -/
theorem merge_pops_solitary_log (s1 : StateInner) (ev : TimelineEvent)
    (htc : ev.request.payloads.any
      (fun p => p.kind = .Trace ∨ p.kind = .Caller) = true)
    (tl : List TimelineEvent) (last : TimelineEvent)
    (ht : s1.timeline = tl ++ [last])
    (m : String) (hm : extract_single_log_message last = some m) :
    merge_previous_log_into_context s1 ev =
      ({ s1 with timeline := tl },
       if ev.label = none then { ev with label := some m } else ev) := by
  unfold merge_previous_log_into_context
  rw [ht, if_neg (not_not_intro htc)]
  simp [List.getLast?_concat, hm, List.dropLast_concat]

/-- C4 counterexample: the claim prefers `meta[0].clipboard_data` and falls
back to the first non-empty string value. The code scans *all* meta entries
for a non-empty `clipboard_data`. On a tail log whose `meta[0]` has no
clipboard but whose `meta[1]` carries `"X"` (values `["hello"]`), the merge
labels the new event `"X"`, while the claim's reading would give `"hello"`. -/
theorem record_request_log_merge_counterexample :
    ((record_request 1024 clipboard_state (req_of "u2" [trace_payload]) 2 1).2.timeline.map
        (fun e => e.label)) = [some "X"] ∧
    spec_first_log_message clipboard_event = some "hello" ∧
    extract_single_log_message clipboard_event = some "X" :=
  ⟨rfl, rfl, rfl⟩

/-- C4 (amended): for every recorded request containing a `trace` or `caller`
payload (and no clear/remove/hide payloads), if the tail event is a solitary
log from which a message can be extracted — the first non-empty
`clipboard_data` among its meta entries, else its first non-empty string
value — then the tail is popped and the new event is appended in its place
with that message as label unless a `label` payload of the request already
set one. (When no such message exists, the tail is kept.) -/
theorem record_request_log_merge (retention : Nat) (s : StateInner)
    (request : RayRequest) (fid : Nat) (now : Int)
    (htc : ∃ p ∈ request.payloads, p.kind = .Trace ∨ p.kind = .Caller)
    (hns : ∀ p ∈ request.payloads, is_skip_kind p.kind = false)
    (tl : List TimelineEvent) (last : TimelineEvent)
    (ht : s.timeline = tl ++ [last])
    (m : String) (hm : extract_single_log_message last = some m)
    (hlen : s.timeline.length ≤ retention) :
    ∃ e, (record_request retention s request fid now).1 = some e ∧
      (record_request retention s request fid now).2.timeline = tl ++ [e] ∧
      e.label = (last_update label_update request.payloads).or (some m) ∧
      e.id = fid := by
  have hdisp : (pass_acc s
      ⟨fid, now, request, extract_screen_from_meta request.meta, none, none⟩).displayable =
      true := by
    unfold pass_acc
    rw [foldl_apply_step_displayable]
    rcases htc with ⟨p, hp, hpk⟩
    have : request.payloads.any (fun p => is_displayable_kind p.kind) = true := by
      rw [List.any_eq_true]
      refine ⟨p, hp, ?_⟩
      rcases hpk with hk | hk <;> rw [hk] <;> rfl
    simp [this]
  have hout : (pass_acc s
      ⟨fid, now, request, extract_screen_from_meta request.meta, none, none⟩).outcome =
      .Record := by
    unfold pass_acc
    rw [foldl_apply_step_outcome_of_no_skip_kind _ _ hns]
  have hfin : finish_acc (pass_acc s
      ⟨fid, now, request, extract_screen_from_meta request.meta, none, none⟩) =
      pass_acc s
        ⟨fid, now, request, extract_screen_from_meta request.meta, none, none⟩ :=
    finish_acc_of_displayable _ hdisp
  have ho : (apply_payloads s
      ⟨fid, now, request, extract_screen_from_meta request.meta, none, none⟩).1 =
      .Record := by
    rw [apply_payloads_fst, hfin, hout]
  have happly_tl : (apply_payloads s
      ⟨fid, now, request, extract_screen_from_meta request.meta, none,
        none⟩).2.1.timeline = tl ++ [last] := by
    rw [apply_payloads_snd_fst, hfin]
    unfold pass_acc
    rw [foldl_apply_step_timeline_of_no_skip_kind _ _ hns]
    exact ht
  have hreq2 : (apply_payloads s
      ⟨fid, now, request, extract_screen_from_meta request.meta, none,
        none⟩).2.2.request = request :=
    apply_payloads_ev_request _ _
  have hany : ((apply_payloads s
      ⟨fid, now, request, extract_screen_from_meta request.meta, none,
        none⟩).2.2.request.payloads.any
        (fun p => p.kind = .Trace ∨ p.kind = .Caller)) = true := by
    rw [hreq2, List.any_eq_true]
    rcases htc with ⟨p, hp, hpk⟩
    exact ⟨p, hp, by simpa using hpk⟩
  have hmerge := merge_pops_solitary_log
    ((apply_payloads s
      ⟨fid, now, request, extract_screen_from_meta request.meta, none, none⟩).2.1)
    ((apply_payloads s
      ⟨fid, now, request, extract_screen_from_meta request.meta, none, none⟩).2.2)
    hany tl last happly_tl m hm
  rw [record_request_of_record retention s request fid now ho, hmerge]
  have htllen : tl.length + 1 ≤ retention := by
    rw [ht, List.length_append] at hlen
    simpa using hlen
  refine ⟨_, push_event_fst _ _ _, ?_, ?_, ?_⟩
  · rw [push_event_timeline]
    show (if ({ (apply_payloads s
        ⟨fid, now, request, extract_screen_from_meta request.meta, none,
          none⟩).2.1 with timeline := tl } : StateInner).timeline.length + 1 > retention
      then _ else _) = _
    rw [if_neg (by simpa using Nat.not_lt.mpr htllen)]
  · rw [inherit_screen_label]
    have hlab : (apply_payloads s
        ⟨fid, now, request, extract_screen_from_meta request.meta, none,
          none⟩).2.2.label = last_update label_update request.payloads := by
      rw [apply_payloads_ev_label, Option.or_none]
    cases hu : last_update label_update request.payloads with
    | none =>
      rw [hu] at hlab
      rw [if_pos hlab]
      simp [Option.none_or]
    | some u =>
      rw [hu] at hlab
      rw [if_neg (by rw [hlab]; simp)]
      rw [hlab]
      simp [Option.or]
  · rw [inherit_screen_id]
    have hid : (apply_payloads s
        ⟨fid, now, request, extract_screen_from_meta request.meta, none,
          none⟩).2.2.id = fid := apply_payloads_ev_id _ _
    split <;> simpa using hid

/-- Witness for C4 (amended): the spec's own scenario — POST
`log{values:["hello"]}`, then POST a `trace` request; the resulting timeline
is the single merged event labelled `"hello"`. -/
theorem record_request_log_merge_witness :
    (∃ p ∈ (req_of "u2" [trace_payload]).payloads,
      p.kind = .Trace ∨ p.kind = .Caller) ∧
    extract_single_log_message hello_event = some "hello" ∧
    (∃ e, (record_request 1024 one_event_state (req_of "u2" [trace_payload]) 2 1).1 =
        some e ∧
      (record_request 1024 one_event_state
        (req_of "u2" [trace_payload]) 2 1).2.timeline = [] ++ [e] ∧
      e.label = (last_update label_update (req_of "u2" [trace_payload]).payloads).or
        (some "hello") ∧
      e.id = 2) :=
  ⟨⟨trace_payload, by simp [req_of], Or.inl rfl⟩, rfl,
   record_request_log_merge 1024 one_event_state (req_of "u2" [trace_payload]) 2 1
     ⟨trace_payload, by simp [req_of], Or.inl rfl⟩
     (by
       intro p hp
       have h1 : p = trace_payload := by simpa [req_of] using hp
       rw [h1]
       rfl)
     [] hello_event rfl "hello" rfl (by decide)⟩


/-! ## C5 — the screen carried by recorded events -/

/-- C5 counterexample: the claim gives the most recent `new_screen` name
precedence over the event's own request-meta screen hint. In the code the
hint wins: after `new_screen{name:"Debug"}`, a log request whose meta carries
`screen:"Mine"` is recorded with screen `"Mine"`, not `"Debug"`. -/
theorem record_request_event_screen_counterexample :
    (record_request 1024 StateInner.default
        (req_of "u1" [new_screen_payload "Debug"]) 1 0).2.current_screen =
      some "Debug" ∧
    ((record_request 1024
        (record_request 1024 StateInner.default
          (req_of "u1" [new_screen_payload "Debug"]) 1 0).2
        ⟨"u2", [log_payload_data], [("screen", .str "Mine")]⟩ 2 1).2.timeline.map
        (fun e => e.screen)) = [some "Debug", some "Mine"] :=
  ⟨rfl, rfl⟩

/-- C5 (amended): every recorded event's screen follows the precedence
"own-request `new_screen` name (sanitized), else own request-meta screen
hint, else the store's current screen"; and when the request carries no
named `new_screen`, recording it leaves the current screen unchanged (so a
screen, once set, persists for subsequent events until replaced or the
timeline is cleared). -/
theorem record_request_event_screen (retention : Nat) (s : StateInner)
    (request : RayRequest) (fid : Nat) (now : Int)
    (e : TimelineEvent) (s2 : StateInner)
    (h : record_request retention s request fid now = (some e, s2)) :
    e.screen = (last_update screen_update request.payloads).or
      ((extract_screen_from_meta request.meta).or s.current_screen) ∧
    (last_update screen_update request.payloads = none →
      s2.current_screen = s.current_screen) := by
  cases ho : (apply_payloads s
      ⟨fid, now, request, extract_screen_from_meta request.meta, none, none⟩).1 with
  | Skip =>
    rw [record_request_of_skip retention s request fid now ho] at h
    simp at h
  | Record =>
    have hpassout : (pass_acc s
        ⟨fid, now, request, extract_screen_from_meta request.meta, none,
          none⟩).outcome = .Record := by
      have h2 := ho
      rw [apply_payloads_fst, finish_acc_outcome] at h2
      split at h2
      · exact h2
      · exact absurd h2 (by decide)
    have hnoskip : ∀ p ∈ request.payloads, is_skip_kind p.kind = false := by
      intro p hp
      cases hbb : is_skip_kind p.kind with
      | false => rfl
      | true =>
        have hskip := foldl_apply_step_outcome_of_skip_mem request.payloads
          ⟨s, ⟨fid, now, request, extract_screen_from_meta request.meta, none, none⟩,
            false, .Record, none, none⟩ ⟨p, hp, hbb⟩
        rw [show pass_acc s
            ⟨fid, now, request, extract_screen_from_meta request.meta, none, none⟩ =
            request.payloads.foldl apply_step
              ⟨s, ⟨fid, now, request, extract_screen_from_meta request.meta, none,
                none⟩, false, .Record, none, none⟩ from rfl] at hpassout
        rw [hpassout] at hskip
        exact absurd hskip (by decide)
    have hnoclear : ∀ p ∈ request.payloads, p.kind ≠ .ClearAll := by
      intro p hp hk
      have h3 := hnoskip p hp
      rw [hk] at h3
      exact absurd h3 (by decide)
    have hpassscreen : (pass_acc s
        ⟨fid, now, request, extract_screen_from_meta request.meta, none,
          none⟩).ev.screen =
        (last_update screen_update request.payloads).or
          (extract_screen_from_meta request.meta) := by
      unfold pass_acc
      rw [foldl_apply_step_ev_screen]
    have hpasscs : (pass_acc s
        ⟨fid, now, request, extract_screen_from_meta request.meta, none,
          none⟩).st.current_screen =
        (last_update screen_update request.payloads).or s.current_screen := by
      unfold pass_acc
      rw [foldl_apply_step_current_screen _ _ hnoclear]
    rw [record_request_of_record retention s request fid now ho] at h
    have hefst : some (inherit_screen
        (merge_previous_log_into_context
          (apply_payloads s
            ⟨fid, now, request, extract_screen_from_meta request.meta, none,
              none⟩).2.1
          (apply_payloads s
            ⟨fid, now, request, extract_screen_from_meta request.meta, none,
              none⟩).2.2).1
        (merge_previous_log_into_context
          (apply_payloads s
            ⟨fid, now, request, extract_screen_from_meta request.meta, none,
              none⟩).2.1
          (apply_payloads s
            ⟨fid, now, request, extract_screen_from_meta request.meta, none,
              none⟩).2.2).2) = some e := by
      rw [← push_event_fst retention
        (merge_previous_log_into_context
          (apply_payloads s
            ⟨fid, now, request, extract_screen_from_meta request.meta, none,
              none⟩).2.1
          (apply_payloads s
            ⟨fid, now, request, extract_screen_from_meta request.meta, none,
              none⟩).2.2).1
        (inherit_screen
          (merge_previous_log_into_context
            (apply_payloads s
              ⟨fid, now, request, extract_screen_from_meta request.meta, none,
                none⟩).2.1
            (apply_payloads s
              ⟨fid, now, request, extract_screen_from_meta request.meta, none,
                none⟩).2.2).1
          (merge_previous_log_into_context
            (apply_payloads s
              ⟨fid, now, request, extract_screen_from_meta request.meta, none,
                none⟩).2.1
            (apply_payloads s
              ⟨fid, now, request, extract_screen_from_meta request.meta, none,
                none⟩).2.2).2), h]
    have he : inherit_screen
        (merge_previous_log_into_context
          (apply_payloads s
            ⟨fid, now, request, extract_screen_from_meta request.meta, none,
              none⟩).2.1
          (apply_payloads s
            ⟨fid, now, request, extract_screen_from_meta request.meta, none,
              none⟩).2.2).1
        (merge_previous_log_into_context
          (apply_payloads s
            ⟨fid, now, request, extract_screen_from_meta request.meta, none,
              none⟩).2.1
          (apply_payloads s
            ⟨fid, now, request, extract_screen_from_meta request.meta, none,
              none⟩).2.2).2 = e := by
      injection hefst
    have hs2 : s2.current_screen =
        (merge_previous_log_into_context
          (apply_payloads s
            ⟨fid, now, request, extract_screen_from_meta request.meta, none,
              none⟩).2.1
          (apply_payloads s
            ⟨fid, now, request, extract_screen_from_meta request.meta, none,
              none⟩).2.2).1.current_screen := by
      have h4 := congrArg (fun x => x.2.current_screen) h
      simp only [] at h4
      rw [push_event_current_screen] at h4
      exact h4.symm
    have hM1 : (merge_previous_log_into_context
        (apply_payloads s
          ⟨fid, now, request, extract_screen_from_meta request.meta, none,
            none⟩).2.1
        (apply_payloads s
          ⟨fid, now, request, extract_screen_from_meta request.meta, none,
            none⟩).2.2).1.current_screen =
        (last_update screen_update request.payloads).or s.current_screen := by
      rw [merge_current_screen, apply_payloads_snd_fst, finish_acc_current_screen,
        hpasscs]
    have hM2 : (merge_previous_log_into_context
        (apply_payloads s
          ⟨fid, now, request, extract_screen_from_meta request.meta, none,
            none⟩).2.1
        (apply_payloads s
          ⟨fid, now, request, extract_screen_from_meta request.meta, none,
            none⟩).2.2).2.screen =
        ((last_update screen_update request.payloads).or
          (extract_screen_from_meta request.meta)).or
          ((last_update screen_update request.payloads).or s.current_screen) := by
      rw [merge_ev_screen, apply_payloads_snd_snd, inherit_screen_screen,
        finish_acc_ev, finish_acc_current_screen, hpassscreen, hpasscs]
    constructor
    · rw [← he, inherit_screen_screen, hM2, hM1]
      cases last_update screen_update request.payloads <;>
        cases extract_screen_from_meta request.meta <;>
        cases s.current_screen <;>
        simp [Option.or]
    · intro hU
      rw [hs2, hM1, hU, Option.none_or]

/-- Witness for C5 (amended) at a concrete input: a plain log request
recorded into a store whose current screen is `"Debug"` — the recorded event
inherits `"Debug"` and the current screen persists. -/
theorem record_request_event_screen_witness :
    record_request 1024 ⟨[], [], some "Debug"⟩ (req_of "u2" [log_payload_data]) 7 5 =
      (some ⟨7, 5, req_of "u2" [log_payload_data], some "Debug", none, none⟩,
       ⟨[⟨7, 5, req_of "u2" [log_payload_data], some "Debug", none, none⟩], [],
        some "Debug"⟩) ∧
    ((⟨7, 5, req_of "u2" [log_payload_data], some "Debug", none,
        none⟩ : TimelineEvent).screen =
      (last_update screen_update (req_of "u2" [log_payload_data]).payloads).or
        ((extract_screen_from_meta (req_of "u2" [log_payload_data]).meta).or
          (some "Debug")) ∧
     (last_update screen_update (req_of "u2" [log_payload_data]).payloads = none →
      (⟨[⟨7, 5, req_of "u2" [log_payload_data], some "Debug", none, none⟩], [],
        some "Debug"⟩ : StateInner).current_screen = some "Debug")) :=
  ⟨rfl,
   record_request_event_screen 1024 ⟨[], [], some "Debug"⟩
     (req_of "u2" [log_payload_data]) 7 5
     ⟨7, 5, req_of "u2" [log_payload_data], some "Debug", none, none⟩
     ⟨[⟨7, 5, req_of "u2" [log_payload_data], some "Debug", none, none⟩], [],
      some "Debug"⟩ rfl⟩


/-! ## C8 — totality of the detail builder -/

/-- C8: for every payload — any kind, any content shape — and every
received-at instant, `build_detail_view` is a total function (it is a plain
Lean function, so it terminates on all inputs without panicking) and returns
either a non-empty `lines` array or an empty list together with a non-empty
`header`; the dispatch falls back to the pretty-printed raw content
(`fallback_lines`) when no more specific rendering path applies. -/
theorem build_detail_view_total (p : Payload) (t : Int) :
    (build_detail_view p t).lines ≠ [] ∨
      ((build_detail_view p t).lines = [] ∧ (build_detail_view p t).header ≠ "") := by
  have hne : (build_detail_view p t).header ≠ "" := by
    have hdr : (build_detail_view p t).header =
        payload_label p ++ " • " ++ humanize_timestamp t := rfl
    intro hcon
    rw [hdr] at hcon
    have hlen := congrArg String.length hcon
    rw [String.length_append, String.length_append] at hlen
    have h3 : (" • " : String).length = 3 := rfl
    have h0 : ("" : String).length = 0 := rfl
    simp only [h3, h0] at hlen
    omega
  by_cases hl : (build_detail_view p t).lines = []
  · exact Or.inr ⟨hl, hne⟩
  · exact Or.inl hl

/-! ## C9 — what the header's time component is -/

/-- C9 counterexample: the claim says the header shows the whole number of
seconds **elapsed since the event was received**. `humanize_timestamp`
formats `received_at.duration_since(UNIX_EPOCH)` — the event's absolute
Unix timestamp. For an event received at epoch + 100 s, inspected at that
same instant (elapsed = 0 s), the code shows `"log • 100s"`, not
`"log • 0s"`. -/
theorem build_detail_view_header_counterexample :
    (build_detail_view log_payload_hello 100).header = "log • 100s" ∧
    payload_label log_payload_hello ++ " • " ++ toString (100 - 100 : Nat) ++ "s" =
      "log • 0s" ∧
    "log • 100s" ≠ "log • 0s" :=
  ⟨rfl, rfl, by decide⟩

/-- C9 (amended): for every payload and received-at instant at or after the
Unix epoch, the detail header equals
`"<kind-label> • <seconds-since-epoch-of-received_at>s"` (pre-epoch instants
render as `"<kind-label> • now"`): the count is the event's absolute
timestamp in whole seconds, not the time elapsed since it was received —
`build_detail_view` never consults the current time. -/
theorem build_detail_view_header (p : Payload) (t : Int) (h : 0 ≤ t) :
    (build_detail_view p t).header =
      payload_label p ++ " • " ++ toString t.toNat ++ "s" := by
  show payload_label p ++ " • " ++ humanize_timestamp t = _
  unfold humanize_timestamp
  rw [if_neg (by omega)]
  simp [String.append_assoc]

/-- Witness for C9 (amended) at a concrete input. -/
theorem build_detail_view_header_witness :
    (0 : Int) ≤ 100 ∧
    (build_detail_view log_payload_hello 100).header =
      payload_label log_payload_hello ++ " • " ++ toString (100 : Int).toNat ++ "s" :=
  ⟨by decide, build_detail_view_header log_payload_hello 100 (by decide)⟩


/-! ## C10 — idempotence of flatten -/

theorem wordsAux_words (cs : List Char) (acc : List Char)
    (hacc : ∀ c ∈ acc, isRustWs c = false) :
    ∀ w ∈ wordsAux acc cs, w ≠ [] ∧ ∀ c ∈ w, isRustWs c = false := by
  induction cs generalizing acc with
  | nil =>
    intro w hw
    by_cases h : acc.isEmpty
    · simp [wordsAux, h] at hw
    · simp [wordsAux, h] at hw
      subst hw
      refine ⟨?_, fun c hc => hacc c (List.mem_reverse.mp hc)⟩
      simp [List.isEmpty_iff] at h
      simpa using h
  | cons c cs ih =>
    intro w hw
    by_cases hws : isRustWs c = true
    · by_cases hacc0 : acc.isEmpty
      · simp [wordsAux, hws, hacc0] at hw
        exact ih [] (by simp) w hw
      · simp [wordsAux, hws, hacc0] at hw
        rcases hw with rfl | hw
        · refine ⟨?_, fun x hx => hacc x (List.mem_reverse.mp hx)⟩
          simp [List.isEmpty_iff] at hacc0
          simpa using hacc0
        · exact ih [] (by simp) w hw
    · simp [wordsAux, hws] at hw
      refine ih (c :: acc) ?_ w hw
      intro x hx
      rcases List.mem_cons.mp hx with rfl | hx
      · simpa using hws
      · exact hacc x hx

theorem wordsAux_append (w : List Char) (hw : ∀ c ∈ w, isRustWs c = false)
    (acc rest : List Char) :
    wordsAux acc (w ++ rest) = wordsAux (w.reverse ++ acc) rest := by
  induction w generalizing acc with
  | nil => simp
  | cons c w ih =>
    have hc : isRustWs c = false := hw c (by simp)
    have hw2 : ∀ x ∈ w, isRustWs x = false := fun x hx => hw x (by simp [hx])
    simp only [List.cons_append]
    rw [show wordsAux acc (c :: (w ++ rest)) = wordsAux (c :: acc) (w ++ rest) from
        by simp [wordsAux, hc]]
    rw [ih hw2 (c :: acc)]
    congr 1
    simp

theorem intercalate_space_cons_cons (w w2 : List Char) (ws : List (List Char)) :
    List.intercalate [' '] (w :: w2 :: ws) =
      w ++ ' ' :: List.intercalate [' '] (w2 :: ws) := by
  simp [List.intercalate, List.intersperse]

theorem splitWhitespace_join (ws : List (List Char))
    (h : ∀ w ∈ ws, w ≠ [] ∧ ∀ c ∈ w, isRustWs c = false) :
    splitWhitespace (List.intercalate [' '] ws) = ws := by
  induction ws with
  | nil => simp [splitWhitespace, wordsAux, List.intercalate, List.intersperse]
  | cons w ws ih =>
    rcases h w (by simp) with ⟨hne, hwf⟩
    cases ws with
    | nil =>
      have h1 : List.intercalate [' '] [w] = w := by
        simp [List.intercalate, List.intersperse]
      rw [h1]
      unfold splitWhitespace
      calc wordsAux [] w = wordsAux [] (w ++ []) := by simp
        _ = wordsAux (w.reverse ++ []) [] := wordsAux_append w hwf [] []
        _ = [w] := by
            have hrev : ¬ (w.reverse ++ []).isEmpty := by
              simp only [List.append_nil, List.isEmpty_iff, List.reverse_eq_nil_iff]
              exact hne
            simp [wordsAux, hrev, hne]
    | cons w2 ws2 =>
      rw [intercalate_space_cons_cons]
      unfold splitWhitespace
      rw [wordsAux_append w hwf [] (' ' :: List.intercalate [' '] (w2 :: ws2))]
      have hsp : isRustWs ' ' = true := by decide
      have hrev : ¬ (w.reverse ++ []).isEmpty := by
        simp only [List.append_nil, List.isEmpty_iff, List.reverse_eq_nil_iff]
        exact hne
      rw [show wordsAux (w.reverse ++ [])
          (' ' :: List.intercalate [' '] (w2 :: ws2)) =
          w :: wordsAux [] (List.intercalate [' '] (w2 :: ws2)) from by
        simp [wordsAux, hsp, hrev, hne]]
      exact congrArg (w :: ·) (ih (fun x hx => h x (by simp [hx])))

theorem wordsAux_chars (cs : List Char) (acc : List Char) :
    ∀ w ∈ wordsAux acc cs, ∀ c ∈ w, c ∈ acc ∨ c ∈ cs := by
  induction cs generalizing acc with
  | nil =>
    intro w hw c hc
    by_cases h : acc.isEmpty
    · simp [wordsAux, h] at hw
    · simp [wordsAux, h] at hw
      subst hw
      exact Or.inl (List.mem_reverse.mp hc)
  | cons x cs ih =>
    intro w hw c hc
    by_cases hws : isRustWs x = true
    · by_cases hacc0 : acc.isEmpty
      · simp [wordsAux, hws, hacc0] at hw
        rcases ih [] w hw c hc with h | h
        · simp at h
        · exact Or.inr (by simp [h])
      · simp [wordsAux, hws, hacc0] at hw
        rcases hw with rfl | hw
        · exact Or.inl (List.mem_reverse.mp hc)
        · rcases ih [] w hw c hc with h | h
          · simp at h
          · exact Or.inr (by simp [h])
    · simp [wordsAux, hws] at hw
      rcases ih (x :: acc) w hw c hc with h | h
      · rcases List.mem_cons.mp h with rfl | h
        · exact Or.inr (by simp)
        · exact Or.inl h
      · exact Or.inr (by simp [h])

theorem intercalate_space_chars (ws : List (List Char)) :
    ∀ c ∈ List.intercalate [' '] ws, c = ' ' ∨ ∃ w ∈ ws, c ∈ w := by
  induction ws with
  | nil =>
    intro c hc
    simp [List.intercalate, List.intersperse] at hc
  | cons w ws ih =>
    cases ws with
    | nil =>
      intro c hc
      have h1 : List.intercalate [' '] [w] = w := by
        simp [List.intercalate, List.intersperse]
      rw [h1] at hc
      exact Or.inr ⟨w, by simp, hc⟩
    | cons w2 ws2 =>
      intro c hc
      rw [intercalate_space_cons_cons] at hc
      rcases List.mem_append.mp hc with h | h
      · exact Or.inr ⟨w, by simp, h⟩
      · rcases List.mem_cons.mp h with rfl | h
        · exact Or.inl rfl
        · rcases ih c h with h2 | ⟨w3, hw3, hc3⟩
          · exact Or.inl h2
          · exact Or.inr ⟨w3, by simp [List.mem_cons.mp hw3], hc3⟩

theorem decodeGo_no_amp (fuel : Nat) (cs : List Char) (h : ∀ c ∈ cs, c ≠ '&') :
    decodeGo fuel cs = cs := by
  induction fuel generalizing cs with
  | zero => rfl
  | succ fuel ih =>
    cases cs with
    | nil => rfl
    | cons c rest =>
      have hc : ¬ c = '&' := h c (by simp)
      simp [decodeGo, hc]
      exact ih rest (fun x hx => h x (by simp [hx]))

theorem decodeChars_no_amp (cs : List Char) (h : ∀ c ∈ cs, c ≠ '&') :
    decodeChars cs = cs :=
  decodeGo_no_amp cs.length cs h

/-- C10 counterexample: `flatten` is built on HTML-entity decoding, which
strips one level of encoding per application. On the double-encoded input
`"&amp;amp;"` the first flatten yields `"&amp;"` and the second `"&"`, so
`flatten (flatten s) ≠ flatten s`. -/
theorem flatten_idempotent_counterexample :
    flatten "&amp;amp;" = "&amp;" ∧ flatten (flatten "&amp;amp;") = "&" ∧
    ("&amp;" : String) ≠ "&" :=
  ⟨rfl, rfl, by decide⟩

/-- C10 (amended): `flatten (flatten s) = flatten s` holds for every string
without an ampersand (where entity decoding is the identity); in general a
double-encoded entity decodes one more level on the second pass. -/
theorem flatten_idempotent_no_amp (s : String) (h : ∀ c ∈ s.data, c ≠ '&') :
    flatten (flatten s) = flatten s := by
  have hdec : decodeChars s.data = s.data := decodeChars_no_amp _ h
  have hflat : flatten s =
      String.mk (List.intercalate [' '] (splitWhitespace s.data)) := by
    simp [flatten, hdec]
  have hwords := wordsAux_words s.data [] (by simp)
  have hno : ∀ c ∈ (flatten s).data, c ≠ '&' := by
    intro c hc
    rw [hflat] at hc
    rcases intercalate_space_chars _ c hc with rfl | ⟨w, hw, hcw⟩
    · decide
    · rcases wordsAux_chars s.data [] w hw c hcw with h1 | h1
      · simp at h1
      · exact h c h1
  have hdec2 : decodeChars (flatten s).data = (flatten s).data :=
    decodeChars_no_amp _ hno
  have hsplit : splitWhitespace ((flatten s).data) = splitWhitespace s.data := by
    rw [hflat]
    exact splitWhitespace_join _ hwords
  show String.mk (List.intercalate [' ']
    (splitWhitespace (decodeChars (flatten s).data))) = flatten s
  rw [hdec2, hsplit]
  rw [hflat]

/-- Witness for C10 (amended) at a concrete ampersand-free input. -/
theorem flatten_idempotent_no_amp_witness :
    (∀ c ∈ ("  a \t b  " : String).data, c ≠ '&') ∧
    flatten (flatten "  a \t b  ") = flatten "  a \t b  " :=
  ⟨by decide, flatten_idempotent_no_amp "  a \t b  " (by decide)⟩

end Raygun
